import Mathlib

/-!
Verification of core MaxScale (MySQL/MariaDB proxy) routines against their
natural-language specification. Shallow embedding: the relevant C++ functions
are translated into executable Lean definitions (buffers become byte lists,
stateful member functions become explicit state-passing functions returning
the new state together with the externally visible actions they perform), and
the specified properties are proved about those definitions.

Sources embedded here:
  - server/modules/routing/readwritesplit/rwsplitsession.cc
    (routeQuery, route_stored_query, discard_master_wait_gtid_result,
     correct_packet_sequence, handle_causal_read_reply, trx_replay_next_stmt,
     manage_transactions, erase_last_packet, clientReply, start_trx_replay)
  - the MariaDB client protocol module (get_version_string, parse_kill_query,
    handle_change_user, reauthenticate_client)
  - the MariaDB authenticator module (MariaDBAuthenticatorSession::authenticate)
  - server/core/service.cc (Service::refresh_users)
-/

namespace MaxScale

/-! ## Wire constants (include/maxscale/protocol/mysql.hh) -/

def MYSQL_HEADER_LEN : Nat := 4
def MYSQL_SEQ_OFFSET : Nat := 3
def MYSQL_REPLY_OK : Nat := 0x00
def MYSQL_REPLY_ERR : Nat := 0xff

/-! ## Byte-level packet model

A wire frame is a 3-byte little-endian payload length, a 1-byte sequence
number and the payload. Buffers (GWBUF chains) are modelled as `List Nat`
of byte values. -/

/-- Abstract description of one wire packet: payload bytes plus the sequence
number stored in the fourth header byte. -/
structure Packet where
  payload : List Nat
  seq : Nat
  deriving Repr, DecidableEq

/-- Well-formedness of a packet: the payload length fits in the 3-byte header,
the sequence number fits in one byte and all payload bytes are bytes. -/
def Packet.WF (p : Packet) : Prop :=
  p.payload.length < 2 ^ 24 ∧ p.seq < 256 ∧ ∀ b ∈ p.payload, b < 256

instance (p : Packet) : Decidable p.WF := by
  unfold Packet.WF; infer_instance

/-- Encode a packet into wire bytes: 3-byte little-endian length, sequence
byte, payload (`gw_mysql_set_byte3` layout). -/
def encodePacket (p : Packet) : List Nat :=
  [p.payload.length % 256, p.payload.length / 256 % 256, p.payload.length / 65536 % 256,
   p.seq % 256] ++ p.payload

/-- Encode a list of packets into one contiguous buffer. -/
def encodeBuf (ps : List Packet) : List Nat :=
  (ps.map encodePacket).flatten

/-- Read the byte at an offset of a buffer; 0 past the end (the C code never
reads past the end on the well-formed buffers our theorems quantify over). -/
def getByte (bytes : List Nat) (i : Nat) : Nat :=
  bytes.getD i 0

/-- Decode the 3-byte little-endian payload length at an offset
(`MYSQL_GET_PAYLOAD_LEN` / `gw_mysql_get_byte3`). -/
def readLen3 (bytes : List Nat) (off : Nat) : Nat :=
  getByte bytes off + 256 * getByte bytes (off + 1) + 65536 * getByte bytes (off + 2)

theorem encodePacket_length (p : Packet) :
    (encodePacket p).length = p.payload.length + MYSQL_HEADER_LEN := by
  simp [encodePacket, MYSQL_HEADER_LEN]

theorem readLen3_encode (p : Packet) (rest : List Nat) (h : p.WF) :
    readLen3 (encodePacket p ++ rest) 0 = p.payload.length := by
  obtain ⟨h1, -, -⟩ := h
  simp [readLen3, encodePacket, getByte]
  omega

/-! ## Claim C8: version-string prefix (client protocol `get_version_string`)

```cpp
std::string rval = DEFAULT_VERSION_STRING;
if (!service->config().version_string.empty())
    rval = service->config().version_string;
else { uint64_t smallest_found = UINT64_MAX;
       for (auto server : service->reachable_servers()) {
           auto version = server->version();
           if (version.total > 0 && version.total < smallest_found)
           { rval = server->version_string(); smallest_found = version.total; } } }
if (rval[0] != '5') { rval = "5.5.5-" + rval; }
return rval;
```
Strings are modelled as `List Char`. -/

/-- Fallback version string. `DEFAULT_VERSION_STRING` is
`"5.5.5-10.2.12 " MAXSCALE_VERSION "-maxscale"`; `MAXSCALE_VERSION` is a
build-time macro, instantiated here with a release number of this source
tree. The theorems below never depend on its exact value. -/
def DEFAULT_VERSION_STRING : List Char := "5.5.5-10.2.12 2.4.0-maxscale".toList

/-- Version data of one reachable server: `version().total` and
`version_string()`. -/
structure ServerVersion where
  total : Nat
  versionString : List Char

/-- The selection loop of `get_version_string`: keep the version string of the
server with the smallest positive `version.total` seen so far. -/
def smallest_version_loop : List ServerVersion → Nat → List Char → List Char
  | [], _, rval => rval
  | s :: rest, smallest, rval =>
    if s.total > 0 ∧ s.total < smallest then
      smallest_version_loop rest s.total s.versionString
    else
      smallest_version_loop rest smallest rval

def UINT64_MAX : Nat := 2 ^ 64 - 1

/-- The advertised version before the compatibility prefix step: the
user-configured version string if non-empty, otherwise the version string of
the reachable server with the smallest version number. -/
def advertised_version (configVersion : List Char) (servers : List ServerVersion) : List Char :=
  if configVersion ≠ [] then configVersion
  else smallest_version_loop servers UINT64_MAX DEFAULT_VERSION_STRING

/-- The final step of `get_version_string`: prepend `"5.5.5-"` when the first
character is not `'5'` (an empty `std::string` yields the NUL character for
`rval[0]`, modelled by `headD` with NUL). -/
def version_prefix_step (rval : List Char) : List Char :=
  if rval.headD (Char.ofNat 0) ≠ '5' then "5.5.5-".toList ++ rval else rval

/-- Embedding of `get_version_string` (client protocol module). -/
def get_version_string (configVersion : List Char) (servers : List ServerVersion) : List Char :=
  version_prefix_step (advertised_version configVersion servers)

/-- C8: for every advertised server version string that starts with "10.",
the string sent to clients in the initial handshake is that version prefixed
with "5.5.5-". -/
theorem get_version_string_ten_prefixed (cfg : List Char) (servers : List ServerVersion)
    (h : "10.".toList <+: advertised_version cfg servers) :
    get_version_string cfg servers = "5.5.5-".toList ++ advertised_version cfg servers := by
  obtain ⟨t, ht⟩ := h
  have h1 : advertised_version cfg servers = '1' :: '0' :: '.' :: t := by
    rw [← ht]; rfl
  unfold get_version_string version_prefix_step
  rw [h1]
  simp

/-- Witness for C8 at a concrete input: config version "10.4.7", no servers. -/
theorem get_version_string_ten_prefixed_witness :
    ("10.".toList <+: advertised_version "10.4.7".toList [])
    ∧ get_version_string "10.4.7".toList [] = "5.5.5-10.4.7".toList := by
  refine ⟨by decide, ?_⟩
  rw [get_version_string_ten_prefixed "10.4.7".toList [] (by decide)]
  decide

/-! ## erase_last_packet (rwsplitsession.cc, anonymous namespace)

```cpp
mxs::Buffer::iterator skip_packet(mxs::Buffer::iterator it)
{   uint32_t len = *it++; len |= (*it++) << 8; len |= (*it++) << 16;
    it.advance(len + 1); return it; }
GWBUF* erase_last_packet(GWBUF* input)
{   mxs::Buffer buf(input); auto it = buf.begin(); auto end = it;
    while ((end = skip_packet(it)) != buf.end()) { it = end; }
    buf.erase(it, end); return buf.release(); }
```
Iterators become byte offsets. The while loop advances by at least 4 bytes per
step, so a fuel of `bytes.length` is enough on every buffer on which the C++
loop terminates; the theorems quantify over well-formed packet buffers. -/

/-- Offset after the packet starting at `it`: 3 length bytes consumed plus
`len + 1` further bytes (payload and the sequence byte). -/
def skip_packet (bytes : List Nat) (it : Nat) : Nat :=
  it + 4 + readLen3 bytes it

/-- The search loop of `erase_last_packet`: returns the offset at which the
last packet starts (the `it` at which `skip_packet` reaches the end). -/
def erase_last_loop (fuel : Nat) (bytes : List Nat) (it : Nat) : Nat :=
  match fuel with
  | 0 => it
  | fuel + 1 =>
    if skip_packet bytes it ≠ bytes.length then
      erase_last_loop fuel bytes (skip_packet bytes it)
    else it

/-- Embedding of `erase_last_packet`: drop the last packet of the buffer;
an emptied buffer releases as NULL, modelled by the empty list. -/
def erase_last_packet (bytes : List Nat) : List Nat :=
  bytes.take (erase_last_loop bytes.length bytes 0)

theorem getByte_append (pre l : List Nat) (i : Nat) :
    getByte (pre ++ l) (pre.length + i) = getByte l i := by
  simp only [getByte, List.getD]
  rw [List.get?_append_right (by omega)]
  simp

theorem readLen3_append (pre l : List Nat) :
    readLen3 (pre ++ l) pre.length = readLen3 l 0 := by
  have h0 := getByte_append pre l 0
  have h1 := getByte_append pre l 1
  have h2 := getByte_append pre l 2
  simp only [Nat.add_zero] at h0
  simp [readLen3, h0, h1, h2]

theorem skip_packet_encode (pre : List Nat) (p : Packet) (rest : List Nat) (h : p.WF) :
    skip_packet (pre ++ (encodePacket p ++ rest)) pre.length
      = pre.length + (encodePacket p).length := by
  have := readLen3_append pre (encodePacket p ++ rest)
  rw [skip_packet, this, readLen3_encode p rest h, encodePacket_length]
  simp [MYSQL_HEADER_LEN]
  omega

theorem encodeBuf_cons (p : Packet) (ps : List Packet) :
    encodeBuf (p :: ps) = encodePacket p ++ encodeBuf ps := by
  simp [encodeBuf]

theorem erase_last_loop_encode (ps : List Packet) (pre : List Nat) (fuel : Nat)
    (hne : ps ≠ []) (hwf : ∀ p ∈ ps, p.WF) (hfuel : ps.length ≤ fuel) :
    erase_last_loop fuel (pre ++ encodeBuf ps) pre.length
      = pre.length + (encodeBuf ps.dropLast).length := by
  induction ps generalizing pre fuel with
  | nil => exact absurd rfl hne
  | cons p rest ih =>
    obtain ⟨fuel, rfl⟩ : ∃ f, fuel = f + 1 := by
      cases fuel with
      | zero => simp at hfuel
      | succ f => exact ⟨f, rfl⟩
    rw [erase_last_loop]
    have hwp : p.WF := hwf p (by simp)
    have hskip :
        skip_packet (pre ++ encodeBuf (p :: rest)) pre.length
          = pre.length + (encodePacket p).length := by
      rw [encodeBuf_cons]
      exact skip_packet_encode pre p (encodeBuf rest) hwp
    cases rest with
    | nil =>
      have hlen : (pre ++ encodeBuf [p]).length = pre.length + (encodePacket p).length := by
        simp [encodeBuf]
      rw [if_neg (by rw [hskip, hlen]; exact not_ne_iff.mpr rfl)]
      simp [encodeBuf]
    | cons q rest' =>
      have hlen : (pre ++ encodeBuf (p :: q :: rest')).length
          = pre.length + (encodePacket p).length + (encodeBuf (q :: rest')).length := by
        rw [encodeBuf_cons]; simp; omega
      have hpos : 0 < (encodeBuf (q :: rest')).length := by
        rw [encodeBuf_cons]
        have hl := encodePacket_length q
        simp only [List.length_append, hl, MYSQL_HEADER_LEN]
        omega
      have hne2 : pre.length + (encodePacket p).length
          ≠ (pre ++ encodeBuf (p :: q :: rest')).length := by
        rw [hlen]; omega
      rw [if_pos (by rw [hskip]; exact hne2), hskip]
      have heq : pre ++ encodeBuf (p :: q :: rest')
          = (pre ++ encodePacket p) ++ encodeBuf (q :: rest') := by
        rw [encodeBuf_cons, List.append_assoc]
      have hlen2 : pre.length + (encodePacket p).length = (pre ++ encodePacket p).length := by
        simp
      rw [heq, hlen2,
        ih (pre ++ encodePacket p) fuel (by simp)
          (fun r hr => hwf r (List.mem_cons_of_mem _ hr))
          (by simp at hfuel ⊢; omega)]
      have hdl : (p :: q :: rest').dropLast = p :: (q :: rest').dropLast := rfl
      rw [hdl, encodeBuf_cons]
      simp
      omega

theorem erase_last_packet_encode (ps : List Packet)
    (hne : ps ≠ []) (hwf : ∀ p ∈ ps, p.WF) :
    erase_last_packet (encodeBuf ps) = encodeBuf ps.dropLast := by
  have hfuel : ps.length ≤ (encodeBuf ps).length := by
    clear hne hwf
    induction ps with
    | nil => simp
    | cons p rest ih =>
      rw [encodeBuf_cons]
      have := encodePacket_length p
      simp [MYSQL_HEADER_LEN] at this
      simp [this]
      omega
  have h := erase_last_loop_encode ps [] (encodeBuf ps).length hne hwf hfuel
  simp only [List.nil_append, List.length_nil, Nat.zero_add] at h
  rw [erase_last_packet, h]
  have hsplit : encodeBuf ps = encodeBuf ps.dropLast ++ encodePacket (ps.getLast hne) := by
    conv_lhs => rw [← List.dropLast_append_getLast hne]
    simp [encodeBuf]
  rw [hsplit]
  exact List.take_left _ _

/-! ## Read/write-split session state (rwsplitsession.cc / .hh)

The member state of `RWSplitSession` that the embedded member functions touch.
Buffers carry, besides their bytes, the `GWBUF_IS_REPLAYED` flag and the
routing hint that `retry_query` / `hint_create_route` attach. -/

/-- Causal-read wait state `m_wait_gtid`
(None → WaitingForHeader → UpdatingPackets | RetryingOnMaster). -/
inductive WaitGtid where
  | NONE
  | WAITING_FOR_HEADER
  | UPDATING_PACKETS
  | RETRYING_ON_MASTER
  deriving Repr, DecidableEq

/-- Optimistic-transaction state `m_otrx_state`. -/
inductive Otrx where
  | INACTIVE
  | ACTIVE
  | ROLLBACK
  deriving Repr, DecidableEq

/-- A client statement buffer (GWBUF): bytes, the `GWBUF_IS_REPLAYED` flag and
whether a `HINT_ROUTE_TO_MASTER` hint is attached. -/
structure Buf where
  bytes : List Nat := []
  replayed : Bool := false
  hintMaster : Bool := false
  deriving Repr, DecidableEq

/-- Length of an optional buffer; an absent buffer has length 0
(`mxs::Buffer::length` of an empty buffer). -/
def bufLength : Option Buf → Nat
  | none => 0
  | some b => b.bytes.length

/-- Modelled from the spec: the transaction record (`Trx`, whose class lives in
`trx.hh`, not among the given sources). Per spec §3 it is "the ordered list of
statements executed since the current transaction began, plus a running
checksum of the concatenated bytes of every server-sent packet belonging to
those statements", bounded by a configured maximum byte size. The checksum is
modelled as the concatenated server-sent bytes themselves (checksum equality
is byte-sequence equality), `size` as the recorded statement bytes, and
`empty` reports whether anything was ever recorded (it survives popping the
statements for replay, which the replay code relies on when it compares
checksums after the last statement was popped). -/
structure Trx where
  stmts : List Buf := []
  checksum : List Nat := []
  size : Nat := 0
  deriving Repr, DecidableEq

def Trx.closeTrx (_ : Trx) : Trx := {}

def Trx.add_stmt (t : Trx) (b : Buf) : Trx :=
  { t with stmts := t.stmts ++ [b], size := t.size + b.bytes.length }

def Trx.add_result (t : Trx) (bytes : List Nat) : Trx :=
  { t with checksum := t.checksum ++ bytes }

def Trx.have_stmts (t : Trx) : Bool := t.stmts ≠ []

def Trx.isEmptyTrx (t : Trx) : Bool := t.size = 0 ∧ t.checksum = []

/-- Pop the oldest statement (`Trx::pop_stmt`); the recorded size and checksum
stay with the record. -/
def Trx.pop_stmt (t : Trx) : Option Buf × Trx :=
  match t.stmts with
  | [] => (none, t)
  | b :: rest => (some b, { t with stmts := rest })

/-- Router configuration fields used by the embedded member functions. -/
structure RWConfig where
  transaction_replay : Bool := false
  trx_max_attempts : Nat := 0
  trx_max_size : Nat := 0
  causal_reads : Bool := false
  retry_failed_reads : Bool := false
  deriving Repr, DecidableEq

/-- The `RWSplitSession` member state touched by the embedded functions.
`expected_responses` is an `int` in the source; its asserts keep it
non-negative, and it is modelled as `Int` to keep decrements faithful. -/
structure RWState where
  config : RWConfig := {}
  expected_responses : Int := 0
  query_queue : List Buf := []
  is_replay_active : Bool := false
  can_replay_trx : Bool := true
  num_trx_replays : Nat := 0
  trx : Trx := {}
  replayed_trx : Trx := {}
  orig_trx : Trx := {}
  orig_stmt : Option Buf := none
  current_query : Option Buf := none
  interrupted_query : Option Buf := none
  wait_gtid : WaitGtid := .NONE
  next_seq : Nat := 0
  otrx_state : Otrx := .INACTIVE
  gtid_pos : List Char := []
  deriving Repr, DecidableEq

/-- Externally visible effects of the embedded member functions: dispatching a
statement to a backend, scheduling a retried query (`retry_query(buf, delay)`),
draining the stored-query queue, sending an error packet and terminating the
client session, or terminating it outright. -/
inductive Action where
  | dispatch (b : Buf)
  | retryQuery (b : Buf) (delay : Nat)
  | routeStored
  | terminate (errnum : Nat) (sqlstate msg : String)
  | terminateNow
  | noAction
  deriving Repr, DecidableEq

/-! ## Causal reads (rwsplitsession.cc)

```cpp
GWBUF* RWSplitSession::discard_master_wait_gtid_result(GWBUF* buffer)
{
    uint8_t header_and_command[MYSQL_HEADER_LEN + 1];
    gwbuf_copy_data(buffer, 0, MYSQL_HEADER_LEN + 1, header_and_command);
    if (MYSQL_GET_COMMAND(header_and_command) == MYSQL_REPLY_OK)
    {   m_wait_gtid = UPDATING_PACKETS;
        uint8_t packet_len = MYSQL_GET_PAYLOAD_LEN(header_and_command) + MYSQL_HEADER_LEN;
        m_next_seq = 1;
        buffer = gwbuf_consume(buffer, packet_len); }
    else if (MYSQL_GET_COMMAND(header_and_command) == MYSQL_REPLY_ERR)
    {   m_wait_gtid = RETRYING_ON_MASTER; }
    return buffer;
}
```
Note `packet_len` is a `uint8_t`: the computed length is truncated mod 256
before `gwbuf_consume`; the embedding keeps that truncation. A consumed-empty
buffer (NULL) is the empty list. -/

def discard_master_wait_gtid_result (s : RWState) (buffer : List Nat) :
    RWState × List Nat :=
  if getByte buffer MYSQL_HEADER_LEN = MYSQL_REPLY_OK then
    ({ s with wait_gtid := .UPDATING_PACKETS, next_seq := 1 },
     buffer.drop ((readLen3 buffer 0 + MYSQL_HEADER_LEN) % 256))
  else if getByte buffer MYSQL_HEADER_LEN = MYSQL_REPLY_ERR then
    ({ s with wait_gtid := .RETRYING_ON_MASTER }, buffer)
  else (s, buffer)

/-- Embedding of `correct_packet_sequence`: walk the packets of the buffer by
their 3-byte length headers and overwrite each sequence byte with the next
value of `m_next_seq` (a byte store, hence mod 256). Returns the advanced
`m_next_seq` and the rewritten buffer. The C++ `while` loop over offsets is
expressed as recursion on the byte suffix; each iteration reads and writes
only inside the current packet. -/
def correct_packet_sequence (nextSeq : Nat) (bytes : List Nat) : Nat × List Nat :=
  if hlen : 3 ≤ bytes.length then
    let plen := readLen3 bytes 0 + MYSQL_HEADER_LEN
    let bytes2 := bytes.set MYSQL_SEQ_OFFSET (nextSeq % 256)
    let r := correct_packet_sequence (nextSeq + 1) (bytes2.drop plen)
    (r.1, bytes2.take plen ++ r.2)
  else (nextSeq, bytes)
termination_by bytes.length
decreasing_by
  simp only [List.length_drop, List.length_set]
  simp only [readLen3, MYSQL_HEADER_LEN]
  omega

/-- Embedding of `handle_causal_read_reply`. The buffer-level facts that the
code reads through `GWBUF` properties (`GWBUF_IS_REPLY_OK`, the
`MXS_LAST_GTID` property, whether the reply came from the current master) are
passed as parameters. -/
def handle_causal_read_reply (s : RWState) (writebuf : List Nat)
    (replyOk fromMaster : Bool) (gtidProp : Option (List Char)) :
    RWState × List Nat :=
  if s.config.causal_reads then
    let s1 :=
      if replyOk ∧ fromMaster then
        match gtidProp with
        | some g => { s with gtid_pos := g }
        | none => s
      else s
    let r :=
      if s1.wait_gtid = .WAITING_FOR_HEADER then
        discard_master_wait_gtid_result s1 writebuf
      else (s1, writebuf)
    if r.1.wait_gtid = .UPDATING_PACKETS ∧ r.2 ≠ [] then
      let c := correct_packet_sequence r.1.next_seq r.2
      ({ r.1 with next_seq := c.1 }, c.2)
    else r
  else (s, writebuf)

/-- Renumbering a packet list with consecutive sequence numbers from `n`:
the specification-side description of what `correct_packet_sequence` does. -/
def renumberFrom : Nat → List Packet → List Packet
  | _, [] => []
  | n, p :: ps => { p with seq := n % 256 } :: renumberFrom (n + 1) ps

theorem correct_packet_sequence_encode (ps : List Packet) (n : Nat)
    (hwf : ∀ p ∈ ps, p.WF) :
    correct_packet_sequence n (encodeBuf ps) = (n + ps.length, encodeBuf (renumberFrom n ps)) := by
  induction ps generalizing n with
  | nil =>
    rw [correct_packet_sequence]
    simp [encodeBuf, renumberFrom]
  | cons p rest ih =>
    have hwp : p.WF := hwf p (by simp)
    have hlen3 : 3 ≤ (encodeBuf (p :: rest)).length := by
      rw [encodeBuf_cons]
      have := encodePacket_length p
      simp [MYSQL_HEADER_LEN] at this
      simp [this]
      omega
    rw [correct_packet_sequence, dif_pos hlen3]
    rw [encodeBuf_cons]
    have hrd : readLen3 (encodePacket p ++ encodeBuf rest) 0 = p.payload.length :=
      readLen3_encode p (encodeBuf rest) hwp
    have hset : (encodePacket p ++ encodeBuf rest).set MYSQL_SEQ_OFFSET (n % 256)
        = encodePacket { p with seq := n % 256 } ++ encodeBuf rest := by
      simp [encodePacket, MYSQL_SEQ_OFFSET, List.set, Nat.mod_mod_of_dvd _ dvd_rfl]
    have hplen : (encodePacket { p with seq := n % 256 }).length
        = p.payload.length + MYSQL_HEADER_LEN := by
      rw [encodePacket_length]
    have hdrop : (encodePacket { p with seq := n % 256 } ++ encodeBuf rest).drop
        (readLen3 (encodePacket p ++ encodeBuf rest) 0 + MYSQL_HEADER_LEN) = encodeBuf rest := by
      rw [hrd, ← hplen, List.drop_left]
    have htake : (encodePacket { p with seq := n % 256 } ++ encodeBuf rest).take
        (readLen3 (encodePacket p ++ encodeBuf rest) 0 + MYSQL_HEADER_LEN)
        = encodePacket { p with seq := n % 256 } := by
      rw [hrd, ← hplen, List.take_left]
    simp only [hset, hdrop, htake]
    rw [ih (n + 1) (fun r hr => hwf r (List.mem_cons_of_mem _ hr))]
    simp only [renumberFrom, encodeBuf_cons, List.length_cons, Prod.mk.injEq]
    exact ⟨by omega, trivial⟩

/-! ## Transaction replay (rwsplitsession.cc)

`trx_replay_next_stmt` (lines 337-401), `manage_transactions` (403-471) and
`start_trx_replay` (769-852), embedded as state-transition functions. The
externally visible calls (`retry_query`, `route_stored_query`,
`session->terminate`) become `Action` values. -/

/-- Embedding of `RWSplitSession::trx_replay_next_stmt`. -/
def trx_replay_next_stmt (s : RWState) : RWState × Action :=
  if s.replayed_trx.have_stmts then
    -- more statements to replay: pop the oldest one and execute it
    match (s.replayed_trx.pop_stmt : Option Buf × Trx) with
    | (some b, rt) => ({ s with replayed_trx := rt }, .retryQuery b 0)
    | (none, _) => (s, .noAction)
  else
    -- no more statements to execute
    let s1 := { s with is_replay_active := false, num_trx_replays := 0 }
    if ¬ s1.replayed_trx.isEmptyTrx then
      if s1.trx.checksum = s1.replayed_trx.checksum then
        match s1.interrupted_query with
        | some q => ({ s1 with interrupted_query := none }, .retryQuery q 0)
        | none =>
          if s1.query_queue ≠ [] then (s1, .routeStored) else (s1, .noAction)
      else
        ({ s1 with is_replay_active := true },
         .terminate 1927 "08S01"
           "Transaction checksum mismatch encountered when replaying transaction.")
    else
      (s1, .noAction)

/-- Embedding of `RWSplitSession::manage_transactions`. Facts the code reads
from the backend and the session (`backend->has_session_commands()`,
`session_trx_is_active`, `mxs_mysql_is_ok_packet(writebuf)`) are parameters. -/
def manage_transactions (s : RWState) (backendHasSescmd trxActive writebufOk : Bool)
    (writebuf : List Nat) : RWState × Action :=
  if s.otrx_state = .ROLLBACK then
    if ¬ writebufOk then (s, .terminateNow) else (s, .noAction)
  else if s.config.transaction_replay ∧ s.can_replay_trx ∧ trxActive then
    if ¬ backendHasSescmd then
      if s.trx.size + bufLength s.current_query < s.config.trx_max_size then
        let t1 := s.trx.add_result writebuf
        match s.current_query with
        | some q => ({ s with trx := t1.add_stmt q, current_query := none }, .noAction)
        | none => ({ s with trx := t1 }, .noAction)
      else
        ({ s with current_query := none, trx := s.trx.closeTrx, can_replay_trx := false },
         .noAction)
    else (s, .noAction)
  else if s.wait_gtid = .RETRYING_ON_MASTER then
    (s, .noAction)
  else
    ({ s with current_query := none }, .noAction)

/-- Embedding of `RWSplitSession::start_trx_replay`. Returns the new state,
the boolean the function returns, and the query it schedules (if any). -/
def start_trx_replay (s : RWState) : RWState × Bool × Action :=
  if s.config.transaction_replay ∧ s.can_replay_trx
      ∧ s.num_trx_replays < s.config.trx_max_attempts then
    let s1 := { s with num_trx_replays := s.num_trx_replays + 1 }
    let s2 :=
      if ¬ s1.is_replay_active then
        -- first time replaying: snapshot the transaction and the query
        { s1 with orig_trx := s1.trx, orig_stmt := s1.current_query }
      else
        -- not the first time: restore the original and drop replayed queries
        { s1 with replayed_trx := s1.replayed_trx.closeTrx,
                  trx := s1.orig_trx,
                  current_query := s1.orig_stmt,
                  query_queue := s1.query_queue.filter (fun b => ¬ b.replayed) }
    if s2.trx.have_stmts ∨ s2.current_query.isSome then
      let s3 := { s2 with interrupted_query := s2.current_query,
                          current_query := none,
                          is_replay_active := true,
                          replayed_trx := s2.trx,
                          trx := s2.trx.closeTrx }
      if s3.replayed_trx.have_stmts then
        match (s3.replayed_trx.pop_stmt : Option Buf × Trx) with
        | (some b, rt) => ({ s3 with replayed_trx := rt }, true, .retryQuery b 1)
        | (none, _) => (s3, true, .noAction)
      else
        match s3.interrupted_query with
        | some q => ({ s3 with interrupted_query := none }, true, .retryQuery q 1)
        | none => (s3, true, .noAction)
    else
      (s2, true, .noAction)
  else
    (s, false, .noAction)

/-- C1: when the last replayed statement completes (no statements left, and
the replayed transaction was not empty), the checksum of the replayed
transaction is compared with the pre-failure checksum: on a match the
interrupted statement (or the queued statements) is resumed; on a mismatch
the client connection is terminated with MySQL error 1927 reporting a
transaction checksum mismatch. Whenever replay signals success (the replay
flag is cleared), the post-replay checksum equals the pre-failure one. -/
theorem trx_replay_checksum_termination (s : RWState)
    (hstmts : s.replayed_trx.have_stmts = false)
    (hne : s.replayed_trx.isEmptyTrx = false) :
    (s.trx.checksum = s.replayed_trx.checksum →
       (∀ q, s.interrupted_query = some q →
          trx_replay_next_stmt s
            = ({ s with is_replay_active := false, num_trx_replays := 0,
                        interrupted_query := none }, .retryQuery q 0))
       ∧ (s.interrupted_query = none → s.query_queue ≠ [] →
          trx_replay_next_stmt s
            = ({ s with is_replay_active := false, num_trx_replays := 0 }, .routeStored)))
    ∧ (s.trx.checksum ≠ s.replayed_trx.checksum →
       trx_replay_next_stmt s
         = ({ s with is_replay_active := true, num_trx_replays := 0 },
            .terminate 1927 "08S01"
              "Transaction checksum mismatch encountered when replaying transaction."))
    ∧ ((trx_replay_next_stmt s).1.is_replay_active = false →
       s.trx.checksum = s.replayed_trx.checksum) := by
  refine ⟨fun hc => ⟨?_, ?_⟩, fun hc => ?_, ?_⟩
  · intro q hq
    simp [trx_replay_next_stmt, hstmts, hne, hc, hq]
  · intro hq hqq
    simp [trx_replay_next_stmt, hstmts, hne, hc, hq, hqq]
  · simp [trx_replay_next_stmt, hstmts, hne, hc]
  · intro hact
    by_contra hc
    simp [trx_replay_next_stmt, hstmts, hne, hc] at hact

/-- Witness for C1 at a concrete state: matching checksums resume the
interrupted statement; with a mismatching `trx` checksum the connection is
terminated with error 1927. -/
theorem trx_replay_checksum_termination_witness :
    (let s : RWState :=
      { replayed_trx := { stmts := [], checksum := [1, 2], size := 3 },
        trx := { checksum := [1, 2] },
        interrupted_query := some { bytes := [9] } };
     s.replayed_trx.have_stmts = false ∧ s.replayed_trx.isEmptyTrx = false
     ∧ trx_replay_next_stmt s
        = ({ s with is_replay_active := false, num_trx_replays := 0,
                    interrupted_query := none },
           .retryQuery { bytes := [9] } 0)) := by
  refine ⟨by decide, by decide, ?_⟩
  exact ((trx_replay_checksum_termination _ (by decide) (by decide)).1 (by decide)).1
    { bytes := [9] } rfl

/-- C2: `start_trx_replay` starts a replay only while the attempt count is
strictly below `trx_max_attempts` (counting the new attempt), returns false
once the cap is reached, and on every attempt after the first restores the
statement list and the interrupted query from the snapshot taken at the
first attempt, so the retried statement together with the statements left to
replay are exactly the original transaction. -/
theorem start_trx_replay_not_started (s : RWState)
    (h : ¬(s.config.transaction_replay = true ∧ s.can_replay_trx = true
           ∧ s.num_trx_replays < s.config.trx_max_attempts)) :
    start_trx_replay s = (s, false, .noAction) := by
  rw [start_trx_replay, if_neg (by simpa using h)]

theorem start_trx_replay_rval_num (s : RWState)
    (h1 : s.config.transaction_replay = true) (h2 : s.can_replay_trx = true)
    (h3 : s.num_trx_replays < s.config.trx_max_attempts) :
    (start_trx_replay s).2.1 = true
    ∧ (start_trx_replay s).1.num_trx_replays = s.num_trx_replays + 1 := by
  cases hact : s.is_replay_active <;>
  rcases hst : s.trx.stmts with _ | ⟨b0, r0⟩ <;>
  rcases host : s.orig_trx.stmts with _ | ⟨b1, r1⟩ <;>
  rcases hcq : s.current_query with _ | q0 <;>
  rcases hos : s.orig_stmt with _ | q1 <;>
  simp [start_trx_replay, h1, h2, h3, Trx.have_stmts, Trx.pop_stmt, Trx.closeTrx,
    hact, hst, host, hcq, hos]

theorem start_trx_replay_first_snapshot (s : RWState)
    (h1 : s.config.transaction_replay = true) (h2 : s.can_replay_trx = true)
    (h3 : s.num_trx_replays < s.config.trx_max_attempts)
    (hact : s.is_replay_active = false) :
    (start_trx_replay s).1.orig_trx = s.trx
    ∧ (start_trx_replay s).1.orig_stmt = s.current_query := by
  rcases hst : s.trx.stmts with _ | ⟨b0, r0⟩ <;>
  rcases hcq : s.current_query with _ | q0 <;>
  simp [start_trx_replay, h1, h2, h3, Trx.have_stmts, Trx.pop_stmt, Trx.closeTrx,
    hact, hst, hcq]

theorem start_trx_replay_restore (s : RWState)
    (h1 : s.config.transaction_replay = true) (h2 : s.can_replay_trx = true)
    (h3 : s.num_trx_replays < s.config.trx_max_attempts)
    (hact : s.is_replay_active = true) :
    (∀ b rest, s.orig_trx.stmts = b :: rest →
       (start_trx_replay s).2.2 = .retryQuery b 1
       ∧ (start_trx_replay s).1.replayed_trx.stmts = rest
       ∧ (start_trx_replay s).1.replayed_trx.checksum = s.orig_trx.checksum
       ∧ (start_trx_replay s).1.interrupted_query = s.orig_stmt)
    ∧ (s.orig_trx.stmts = [] → ∀ q, s.orig_stmt = some q →
       (start_trx_replay s).2.2 = .retryQuery q 1
       ∧ (start_trx_replay s).1.interrupted_query = none) := by
  constructor
  · intro b rest hb
    rcases hos : s.orig_stmt with _ | q1 <;>
    simp [start_trx_replay, h1, h2, h3, Trx.have_stmts, Trx.pop_stmt, Trx.closeTrx,
      hact, hb, hos]
  · intro hnil q hq
    simp [start_trx_replay, h1, h2, h3, Trx.have_stmts, Trx.pop_stmt, Trx.closeTrx,
      hact, hnil, hq]

/-- C2: `start_trx_replay` starts a replay only while the attempt count is
strictly below `trx_max_attempts` (counting the new attempt), returns false
once the cap is reached, and on every attempt after the first restores the
statement list and the interrupted query from the snapshot taken at the
first attempt, so the retried statement together with the statements left to
replay are exactly the original transaction. -/
theorem start_trx_replay_cap_snapshot (s : RWState) :
    (s.config.trx_max_attempts ≤ s.num_trx_replays →
       start_trx_replay s = (s, false, .noAction))
    ∧ ((start_trx_replay s).2.1 = true →
       s.num_trx_replays < s.config.trx_max_attempts
       ∧ (start_trx_replay s).1.num_trx_replays = s.num_trx_replays + 1)
    ∧ (s.is_replay_active = false → (start_trx_replay s).2.1 = true →
       (start_trx_replay s).1.orig_trx = s.trx
       ∧ (start_trx_replay s).1.orig_stmt = s.current_query)
    ∧ (s.is_replay_active = true → (start_trx_replay s).2.1 = true →
       (∀ b rest, s.orig_trx.stmts = b :: rest →
          (start_trx_replay s).2.2 = .retryQuery b 1
          ∧ (start_trx_replay s).1.replayed_trx.stmts = rest
          ∧ (start_trx_replay s).1.replayed_trx.checksum = s.orig_trx.checksum
          ∧ (start_trx_replay s).1.interrupted_query = s.orig_stmt)
       ∧ (s.orig_trx.stmts = [] → ∀ q, s.orig_stmt = some q →
          (start_trx_replay s).2.2 = .retryQuery q 1
          ∧ (start_trx_replay s).1.interrupted_query = none)) := by
  by_cases hgate : s.config.transaction_replay = true ∧ s.can_replay_trx = true
      ∧ s.num_trx_replays < s.config.trx_max_attempts
  · obtain ⟨h1, h2, h3⟩ := hgate
    refine ⟨fun hcap => absurd h3 (by omega), fun _ => ⟨h3, ?_⟩,
      fun hact _ => start_trx_replay_first_snapshot s h1 h2 h3 hact,
      fun hact _ => start_trx_replay_restore s h1 h2 h3 hact⟩
    exact (start_trx_replay_rval_num s h1 h2 h3).2
  · have hns := start_trx_replay_not_started s hgate
    refine ⟨fun _ => hns, fun hr => ?_, fun _ hr => ?_, fun _ hr => ?_⟩ <;>
      rw [hns] at hr <;> exact absurd hr (by simp)

/-- Concrete state for the C2 witness: at the attempt cap. -/
def c2CapState : RWState :=
  { config := { transaction_replay := true, trx_max_attempts := 2 },
    num_trx_replays := 2,
    trx := { stmts := [{ bytes := [7] }], size := 1 } }

/-- Concrete state for the C2 witness: a first attempt below the cap. -/
def c2FirstState : RWState :=
  { config := { transaction_replay := true, trx_max_attempts := 2 },
    num_trx_replays := 0,
    trx := { stmts := [{ bytes := [7] }], size := 1 } }

/-- Witness for C2 at concrete states: a state at the attempt cap returns
false unchanged; a first attempt strictly below the cap increments the
attempt count and snapshots the transaction. -/
theorem start_trx_replay_cap_snapshot_witness :
    start_trx_replay c2CapState = (c2CapState, false, .noAction)
    ∧ (start_trx_replay c2FirstState).1.num_trx_replays = 1
    ∧ (start_trx_replay c2FirstState).1.orig_trx = c2FirstState.trx := by
  refine ⟨(start_trx_replay_cap_snapshot c2CapState).1 (by decide), ?_, ?_⟩
  · have h := ((start_trx_replay_cap_snapshot c2FirstState).2.1 (by decide)).2
    simpa using h
  · exact ((start_trx_replay_cap_snapshot c2FirstState).2.2.1 (by decide) (by decide)).1

/-- C5: while a replayable transaction is being recorded, a statement that
would push the recorded size to `trx_max_size` or beyond closes the
transaction record and marks it non-replayable, storing nothing further; and
`manage_transactions` never clears the non-replayable mark or touches the
record once it is set (the mark is reset only when the transaction ends). -/
theorem manage_transactions_size_bound (s : RWState)
    (backendHasSescmd trxActive writebufOk : Bool) (writebuf : List Nat) :
    (s.otrx_state ≠ .ROLLBACK → s.config.transaction_replay = true →
     s.can_replay_trx = true → trxActive = true → backendHasSescmd = false →
     s.config.trx_max_size ≤ s.trx.size + bufLength s.current_query →
       manage_transactions s backendHasSescmd trxActive writebufOk writebuf
         = ({ s with current_query := none, trx := {}, can_replay_trx := false },
            .noAction))
    ∧ (s.can_replay_trx = false →
       (manage_transactions s backendHasSescmd trxActive writebufOk writebuf).1.can_replay_trx
          = false
       ∧ (manage_transactions s backendHasSescmd trxActive writebufOk writebuf).1.trx
          = s.trx) := by
  constructor
  · intro hotrx hcfg hcan htrx hbhs hsize
    rw [manage_transactions, if_neg hotrx, if_pos (by simp [hcfg, hcan, htrx]),
      if_pos (by simp [hbhs]), if_neg (by omega)]
    rfl
  · intro hcan
    rw [manage_transactions]
    split
    · split <;> simp [hcan]
    · rw [if_neg (by simp [hcan])]
      split
      · simp [hcan]
      · simp [hcan]

/-- Witness for C5 at a concrete state: recorded size 5 plus current
statement length 3 reaches `trx_max_size` 8, so the record is closed and
marked non-replayable; and a non-replayable state stays so. -/
theorem manage_transactions_size_bound_witness :
    (let s : RWState :=
      { config := { transaction_replay := true, trx_max_size := 8 },
        trx := { stmts := [{ bytes := [1, 2, 3, 4, 5] }], size := 5 },
        current_query := some { bytes := [6, 7, 8] } };
     manage_transactions s false true true [0]
       = ({ s with current_query := none, trx := {}, can_replay_trx := false },
          .noAction))
    ∧ (let s2 : RWState :=
        { config := { transaction_replay := true, trx_max_size := 8 },
          can_replay_trx := false, trx := { checksum := [4] } };
       (manage_transactions s2 false true true [0]).1.can_replay_trx = false
       ∧ (manage_transactions s2 false true true [0]).1.trx = s2.trx) := by
  refine ⟨?_, ?_⟩
  · exact (manage_transactions_size_bound _ false true true [0]).1
      (by decide) rfl rfl rfl rfl (by decide)
  · exact (manage_transactions_size_bound _ false true true [0]).2 rfl

/-! ## Admission, queueing and reply handling (rwsplitsession.cc) -/

/-- The query-classifier facts `can_route_queries` reads from `m_qc`:
whether `load_data_state() == LOAD_DATA_ACTIVE` and whether `large_query()`
holds (the previous packet of the current statement was of maximal size, so
the arriving buffer is its continuation). -/
structure QcState where
  load_data_active : Bool := false
  large_query : Bool := false
  deriving Repr, DecidableEq

/-- Embedding of `can_route_queries` (rwsplitsession.hh):
`m_expected_responses == 0 || m_qc.load_data_state() == LOAD_DATA_ACTIVE
|| m_qc.large_query()`. -/
def can_route_queries (s : RWState) (qc : QcState) : Bool :=
  s.expected_responses = 0 ∨ qc.load_data_active = true ∨ qc.large_query = true

/-- Modelled from the spec: the successful path of `route_single_stmt`
(rwsplit_route_stmt.cc, not among the given sources). Spec §4.7: routing a
statement dispatches it to one chosen backend, and the admission control of
§4.7 then expects one reply for it. -/
def route_single_stmt (s : RWState) (buf : Buf) : RWState × Bool × Action :=
  ({ s with expected_responses := s.expected_responses + 1 }, true, .dispatch buf)

/-- Embedding of `RWSplitSession::routeQuery` (lines 120-173). `qc` is the
classifier state read by `can_route_queries`; the source's classifier
updates on the dispatch path (`set_load_data_state`, `update_route_info`)
mutate `m_qc` for subsequent packets and do not alter this call's admission
decision, so the snapshot is read-only here. Returns the new state, the
`int32_t` result and the dispatch actions performed. -/
def routeQuery (s : RWState) (qc : QcState) (querybuf : Buf) :
    RWState × Nat × List Action :=
  if s.is_replay_active ∧ ¬ querybuf.replayed then
    -- new query received while transaction replay is active: queue it
    ({ s with query_queue := s.query_queue ++ [querybuf] }, 1, [])
  else if (s.query_queue = [] ∨ querybuf.replayed) ∧ can_route_queries s qc then
    let r := route_single_stmt s querybuf
    (r.1, if r.2.1 then 1 else 0, [r.2.2])
  else
    -- already busy executing a query: store the query and route it later
    ({ s with query_queue := s.query_queue ++ [querybuf] }, 1, [])

/-- Embedding of the `while` loop of `RWSplitSession::route_stored_query`
(lines 185-239): pop the front query, stash the tail (`temp_storage`), route
with an emptied queue; if routing re-queued the query, put it back in front
of the stashed tail and stop, otherwise restore the tail and continue. The
loop advances one queue element per iteration, so the initial queue length
bounds it. -/
def route_stored_query_loop (fuel : Nat) (s : RWState) (qc : QcState) :
    RWState × Bool × List Action :=
  match fuel with
  | 0 => (s, true, [])
  | fuel + 1 =>
    match s.query_queue with
    | [] => (s, true, [])
    | q :: rest =>
      let r := routeQuery { s with query_queue := [] } qc q
      if r.1.query_queue = [] then
        let k := route_stored_query_loop fuel { r.1 with query_queue := rest } qc
        (k.1, (if r.2.1 = 0 then false else k.2.1), r.2.2 ++ k.2.2)
      else
        ({ r.1 with query_queue := r.1.query_queue ++ rest },
         (if r.2.1 = 0 then false else true), r.2.2)

def route_stored_query (s : RWState) (qc : QcState) : RWState × Bool × List Action :=
  route_stored_query_loop s.query_queue.length s qc

/-- The per-reply facts `clientReply` reads from the `mxs::Reply`, the
backend and the session. `sescmdOut` is the buffer that
`process_sescmd_response` leaves for forwarding (empty for discarded), and
`moreSescmdAfter`, `executeOk`, `waitingResult` describe the backend when
more session commands are pending after the reply; `qc` is the query
classifier snapshot read when draining the queue re-enters `routeQuery`. -/
structure ReplyCtx where
  replyComplete : Bool := true
  errUnexpected : Bool := false
  errRollback : Bool := false
  errWsrep : Bool := false
  trxActive : Bool := false
  trxEnding : Bool := false
  backendHasSescmd : Bool := false
  backendInUse : Bool := true
  writebufOk : Bool := true
  replyOk : Bool := false
  fromMaster : Bool := false
  gtidProp : Option (List Char) := none
  moreSescmdAfter : Bool := false
  executeOk : Bool := false
  waitingResult : Bool := false
  sescmdOut : List Nat := []
  qc : QcState := {}
  deriving Repr, DecidableEq

/-- Embedding of `RWSplitSession::handle_ignorable_error` (lines 547-588) as
far as the reply path needs it: with an active transaction the decision is
`start_trx_replay`; the master-retry / read-retry decision of the non-
transaction branch depends on backend bookkeeping outside this model and is
supplied as `retryOk`. On success the expected-response count is
decremented. -/
def handle_ignorable_error (s : RWState) (ctx : ReplyCtx) (retryOk : Bool) :
    RWState × Bool × List Action :=
  let r :=
    if ctx.trxActive then
      let t := start_trx_replay s
      (t.1, t.2.1, [t.2.2])
    else
      (s, retryOk, ([] : List Action))
  if r.2.1 then
    ({ r.1 with expected_responses := r.1.expected_responses - 1 }, true, r.2.2)
  else
    (r.1, false, r.2.2)

/-- Result of the `clientReply` embedding: the new session state, the bytes
forwarded to the client (none when nothing is forwarded) and the externally
visible actions. -/
structure ReplyOut where
  state : RWState
  forwarded : Option (List Nat)
  actions : List Action
  deriving Repr, DecidableEq

/-- Actions list of one optional action. -/
def actOf (a : Action) : List Action :=
  if a = .noAction then [] else [a]

/-- The reply-completion block of `clientReply` (lines 623-680): decrement
the expected-response count, handle the retry-on-master causal-read state
and the optimistic-transaction rollback, reset the causal-read wait.
Returns the continued state, or an early result when processing stops. -/
def reply_complete_block (m1 : RWState) (ctx : ReplyCtx) (mact : List Action) :
    RWState × Option (RWState × List Action) :=
  if ctx.replyComplete then
    let s4 : RWState := { m1 with expected_responses := m1.expected_responses - 1 }
    if s4.wait_gtid = WaitGtid.RETRYING_ON_MASTER then
      match s4.current_query with
      | some q =>
        (s4, some ({ s4 with wait_gtid := .NONE, current_query := none },
                   mact ++ [.retryQuery { q with hintMaster := true } 0]))
      | none =>
        (s4, some ({ s4 with wait_gtid := .NONE, current_query := none }, mact))
    else
      let s5 : RWState := if s4.config.causal_reads then { s4 with wait_gtid := .NONE } else s4
      if s5.otrx_state = Otrx.ROLLBACK then
        let t := start_trx_replay { s5 with otrx_state := .INACTIVE }
        (s5, some (t.1, mact ++ actOf t.2.2))
      else
        (s5, none)
  else
    (m1, none)

/-- The session-command / replay / transaction-end block of `clientReply`
(lines 687-730): the new state, an early result when the response must be
discarded, the buffer left for forwarding and the actions performed. -/
def sescmd_replay_block (s6 : RWState) (ctx : ReplyCtx) (wb1 : List Nat)
    (mact : List Action) : RWState × Option (RWState × List Action) × List Nat × List Action :=
  if ctx.backendHasSescmd then
    (s6, none, ctx.sescmdOut, [])
  else if s6.is_replay_active then
    let r :=
      if s6.expected_responses = 0 then
        let t := trx_replay_next_stmt s6
        (t.1, actOf t.2)
      else
        (s6, [])
    if ¬ r.1.replayed_trx.isEmptyTrx then
      -- the client already has this response, discard it
      (r.1, some (r.1, mact ++ r.2), wb1, r.2)
    else
      (r.1, none, wb1, r.2)
  else if s6.config.transaction_replay ∧ ctx.trxEnding then
    ({ s6 with trx := s6.trx.closeTrx, can_replay_trx := true }, none, wb1, [])
  else
    (s6, none, wb1, [])

/-- The session-command continuation / queue-draining block of `clientReply`
(lines 732-750). -/
def drain_block (s7 : RWState) (ctx : ReplyCtx) : RWState × List Action :=
  if ctx.backendInUse ∧ ctx.moreSescmdAfter then
    if ctx.executeOk ∧ ctx.waitingResult then
      ({ s7 with expected_responses := s7.expected_responses + 1 }, [])
    else
      (s7, [])
  else if s7.expected_responses = 0 ∧ s7.query_queue ≠ []
      ∧ (¬ s7.is_replay_active ∨ ctx.backendHasSescmd) then
    let r := route_stored_query s7 ctx.qc
    (r.1, r.2.2)
  else
    (s7, [])

/-- Embedding of `RWSplitSession::clientReply` (lines 590-767). Statistics
updates and `close_stale_connections` (which touch no state modelled here)
are omitted; everything else follows the source order: causal-read handling,
unexpected-error erasure, ignorable-error handling, transaction management,
reply-completion bookkeeping, session-command / replay / transaction-end
handling, session-command continuation, queued-query draining, forwarding. -/
def clientReply (s : RWState) (writebuf : List Nat) (ctx : ReplyCtx)
    (retryOk : Bool) : ReplyOut :=
  let c := handle_causal_read_reply s writebuf ctx.replyOk ctx.fromMaster ctx.gtidProp
  if c.2 = [] then { state := c.1, forwarded := none, actions := [] }
  else
  let wb1 := if ctx.errUnexpected then erase_last_packet c.2 else c.2
  if wb1 = [] then { state := c.1, forwarded := none, actions := [] }
  else
  let hi := handle_ignorable_error c.1 ctx retryOk
  if (ctx.errRollback ∨ ctx.errWsrep) ∧ hi.2.1 then
    { state := hi.1, forwarded := none, actions := hi.2.2.flatMap actOf }
  else
  let s2 := if ctx.errRollback ∨ ctx.errWsrep then hi.1 else c.1
  let m := manage_transactions s2 ctx.backendHasSescmd ctx.trxActive ctx.writebufOk wb1
  let mact := actOf m.2
  let compl := reply_complete_block m.1 ctx mact
  match compl.2 with
  | some (st, acts) => { state := st, forwarded := none, actions := acts }
  | none =>
    let a := sescmd_replay_block compl.1 ctx wb1 mact
    match a.2.1 with
    | some (st, acts) => { state := st, forwarded := none, actions := acts }
    | none =>
      let d := drain_block a.1 ctx
      { state := d.1,
        forwarded := if a.2.2.1 = [] then none else some a.2.2.1,
        actions := mact ++ a.2.2.2 ++ d.2 }

theorem encodeBuf_ne_nil (ps : List Packet) (h : ps ≠ []) : encodeBuf ps ≠ [] := by
  cases ps with
  | nil => exact absurd rfl h
  | cons p rest => simp [encodeBuf_cons, encodePacket]

theorem sescmd_replay_block_buffer (s6 : RWState) (ctx : ReplyCtx) (wb1 : List Nat)
    (mact : List Action) (hsc : ctx.backendHasSescmd = false) :
    (sescmd_replay_block s6 ctx wb1 mact).2.2.1 = wb1 := by
  unfold sescmd_replay_block
  rw [if_neg (by simp [hsc])]
  dsimp only
  repeat' split
  all_goals rfl

theorem sescmd_replay_block_buffer_eq (s6 : RWState) (ctx : ReplyCtx) (wb1 : List Nat)
    (mact : List Action) :
    (sescmd_replay_block s6 ctx wb1 mact).2.2.1
      = if ctx.backendHasSescmd then ctx.sescmdOut else wb1 := by
  unfold sescmd_replay_block
  dsimp only
  repeat' split
  all_goals simp_all

theorem clientReply_forwarded_cases (s : RWState) (wb : List Nat) (ctx : ReplyCtx)
    (retryOk : Bool) (hsc : ctx.backendHasSescmd = false)
    (hrb : ctx.errRollback = false) (hws : ctx.errWsrep = false) :
    ∀ out, (clientReply s wb ctx retryOk).forwarded = some out →
      out = (if ctx.errUnexpected then
               erase_last_packet (handle_causal_read_reply s wb ctx.replyOk
                 ctx.fromMaster ctx.gtidProp).2
             else (handle_causal_read_reply s wb ctx.replyOk ctx.fromMaster ctx.gtidProp).2) := by
  intro out hout
  unfold clientReply at hout
  dsimp only at hout
  repeat' split at hout
  all_goals simp_all [sescmd_replay_block_buffer_eq]

/-- C10: in `clientReply`, whenever the reply's error is classified as an
unexpected error, the last packet of the reply buffer is erased before
anything is forwarded, so the erased error packet never reaches the client;
if that packet was the only content of the buffer, nothing at all is
forwarded. -/
theorem unexpected_error_hidden (s : RWState) (ps : List Packet) (ctx : ReplyCtx)
    (retryOk : Bool)
    (hcausal : s.config.causal_reads = false)
    (hue : ctx.errUnexpected = true)
    (hsc : ctx.backendHasSescmd = false)
    (hrb : ctx.errRollback = false) (hws : ctx.errWsrep = false)
    (hne : ps ≠ []) (hwf : ∀ p ∈ ps, p.WF) :
    (∀ out, (clientReply s (encodeBuf ps) ctx retryOk).forwarded = some out →
       out = encodeBuf ps.dropLast)
    ∧ (ps.length = 1 →
       (clientReply s (encodeBuf ps) ctx retryOk).forwarded = none
       ∧ (clientReply s (encodeBuf ps) ctx retryOk).actions = []) := by
  have hcstep : handle_causal_read_reply s (encodeBuf ps) ctx.replyOk ctx.fromMaster
      ctx.gtidProp = (s, encodeBuf ps) := by
    simp [handle_causal_read_reply, hcausal]
  have herase : erase_last_packet (encodeBuf ps) = encodeBuf ps.dropLast :=
    erase_last_packet_encode ps hne hwf
  constructor
  · intro out hout
    have h := clientReply_forwarded_cases s (encodeBuf ps) ctx retryOk hsc hrb hws out hout
    rw [hcstep, hue] at h
    simpa [herase] using h
  · intro h1
    obtain ⟨p, rfl⟩ : ∃ p, ps = [p] := by
      cases ps with
      | nil => simp at h1
      | cons p rest => cases rest with
        | nil => exact ⟨p, rfl⟩
        | cons q r => simp at h1
    have hwb1 : erase_last_packet (encodeBuf [p]) = [] := by
      rw [herase]; simp [encodeBuf]
    have hbne : encodeBuf [p] ≠ [] := encodeBuf_ne_nil [p] (by simp)
    constructor <;>
    · unfold clientReply
      rw [hcstep]
      simp [hue, hwb1, hbne]

/-- Concrete reply context for the C10 witness. -/
def c10Ctx : ReplyCtx := { errUnexpected := true }

/-- Witness for C10 at a concrete input: a two-packet reply with an
unexpected error forwards only the first packet, and a single-packet error
reply forwards nothing. -/
theorem unexpected_error_hidden_witness :
    (∀ out,
      (clientReply {} (encodeBuf [{ payload := [1], seq := 1 }, { payload := [0xff, 2], seq := 2 }])
          c10Ctx false).forwarded = some out →
        out = encodeBuf [{ payload := [1], seq := 1 }])
    ∧ (clientReply {} (encodeBuf [{ payload := [0xff, 2], seq := 1 }]) c10Ctx false).forwarded
        = none := by
  constructor
  · intro out hout
    have h := (unexpected_error_hidden {} [{ payload := [1], seq := 1 },
        { payload := [0xff, 2], seq := 2 }] c10Ctx false rfl rfl rfl rfl rfl (by simp)
        (by decide)).1 out hout
    simpa using h
  · exact ((unexpected_error_hidden {} [{ payload := [0xff, 2], seq := 1 }] c10Ctx false
      rfl rfl rfl rfl rfl (by simp) (by decide)).2 rfl).1

/-- C4 (amended): admission is gated by the real `can_route_queries`, which
also admits a buffer while a LOAD DATA stream is active or the buffer is the
continuation of a large multi-packet statement. A client statement arriving
while `can_route_queries` is false, or while the query queue is non-empty,
or while transaction replay is active (and the statement is not a replayed
one), is appended to the per-session queue and not dispatched; a dispatch
can only happen when `can_route_queries` holds, hence — when neither the
LOAD DATA nor the large-query bypass applies — only with zero expected
responses; and, with neither bypass applying, draining routes the queued
statements in arrival order, starting from the front of the queue, only when
no responses are expected. -/
theorem admission_queueing (s : RWState) (qc : QcState) (buf : Buf) :
    (buf.replayed = false →
     (can_route_queries s qc = false ∨ s.query_queue ≠ [] ∨ s.is_replay_active = true) →
       routeQuery s qc buf = ({ s with query_queue := s.query_queue ++ [buf] }, 1, []))
    ∧ ((routeQuery s qc buf).2.2 ≠ [] → can_route_queries s qc = true)
    ∧ (qc.load_data_active = false → qc.large_query = false →
       (routeQuery s qc buf).2.2 ≠ [] → s.expected_responses = 0)
    ∧ (s.expected_responses = 0 → s.is_replay_active = false →
       qc.load_data_active = false → qc.large_query = false →
       ∀ q rest, s.query_queue = q :: rest →
         route_stored_query s qc
           = ({ s with expected_responses := 1, query_queue := rest }, true,
              [.dispatch q])) := by
  refine ⟨?_, ?_, ?_, ?_⟩
  · intro hb hcond
    by_cases hact : s.is_replay_active = true
    · simp [routeQuery, hact, hb]
    · have hact' : s.is_replay_active = false := by simpa using hact
      rcases hcond with h | h | h
      · simp [routeQuery, hact', hb, h]
      · simp [routeQuery, hact', hb, h]
      · exact absurd h (by simp [hact'])
  · intro h
    by_contra hne
    simp only [Bool.not_eq_true] at hne
    simp [routeQuery, hne] at h
  · intro hld hlq h
    have hcr : can_route_queries s qc = true := by
      by_contra hne
      simp only [Bool.not_eq_true] at hne
      simp [routeQuery, hne] at h
    simpa [can_route_queries, hld, hlq] using hcr
  · intro hexp hact hld hlq q rest hq
    cases rest with
    | nil =>
      simp [route_stored_query, hq, route_stored_query_loop, routeQuery, hact,
        can_route_queries, hexp, hld, hlq, route_single_stmt]
    | cons r0 rs =>
      simp [route_stored_query, hq, route_stored_query_loop, routeQuery, hact,
        can_route_queries, hexp, hld, hlq, route_single_stmt]

/-- Concrete state for the C4 witness and counterexample: one reply
outstanding. -/
def c4Busy : RWState := { expected_responses := 1 }

/-- Concrete state for the C4 witness: idle with two queued statements. -/
def c4Idle : RWState := { query_queue := [{ bytes := [3] }, { bytes := [4] }] }

/-- Classifier snapshot of the C4 counterexample: the arriving buffer
continues a large multi-packet statement. -/
def c4LargeQc : QcState := { large_query := true }

/-- Counterexample to C4 as stated: with one reply still outstanding but
`m_qc.large_query()` true, `can_route_queries` holds and `routeQuery`
dispatches the arriving buffer instead of queueing it — a statement IS
dispatched while a reply is outstanding, so the claimed unconditional
"no new client statement is dispatched while any reply is outstanding"
fails (likewise for an active LOAD DATA stream). -/
theorem admission_dispatch_while_outstanding :
    c4Busy.expected_responses = 1
    ∧ routeQuery c4Busy c4LargeQc { bytes := [9] }
        = ({ c4Busy with expected_responses := 2 }, 1,
           [.dispatch { bytes := [9] }]) := by
  exact ⟨rfl, rfl⟩

/-- Witness for C4 at concrete states: with one outstanding reply and no
classifier bypass the statement is queued and nothing is dispatched; with
zero outstanding replies the front queued statement is drained first. -/
theorem admission_queueing_witness :
    routeQuery c4Busy {} { bytes := [9] }
      = ({ c4Busy with query_queue := [{ bytes := [9] }] }, 1, [])
    ∧ route_stored_query c4Idle {}
      = ({ c4Idle with expected_responses := 1, query_queue := [{ bytes := [4] }] },
         true, [.dispatch { bytes := [3] }]) := by
  constructor
  · have h := (admission_queueing c4Busy {} { bytes := [9] }).1 rfl (by decide)
    simpa using h
  · exact (admission_queueing c4Idle {} { bytes := [0] }).2.2.2 rfl rfl rfl rfl
      { bytes := [3] } [{ bytes := [4] }] rfl

theorem encodeBuf_nil : encodeBuf [] = [] := rfl

theorem getByte_encodeBuf_cmd (p0 : Packet) (rest : List Packet) (hpe : p0.payload ≠ []) :
    getByte (encodeBuf (p0 :: rest)) MYSQL_HEADER_LEN = p0.payload.headD 0 := by
  cases hp : p0.payload with
  | nil => exact absurd hp hpe
  | cons x xs => simp [encodeBuf_cons, encodePacket, getByte, MYSQL_HEADER_LEN, hp]

theorem causal_gtid_step (s : RWState) (ro fm : Bool) (gp : Option (List Char)) :
    ∃ g, (if ro = true ∧ fm = true then
            match gp with
            | some gg => { s with gtid_pos := gg }
            | none => s
          else s) = { s with gtid_pos := g } := by
  by_cases hrf : ro = true ∧ fm = true
  · cases gp with
    | some gg => exact ⟨gg, by simp [hrf]⟩
    | none => exact ⟨s.gtid_pos, by simp [hrf]⟩
  · exact ⟨s.gtid_pos, by simp [hrf]⟩

/-- C3 (amended): while a causal read waits for the `MASTER_GTID_WAIT`
result, an OK first packet whose wire length fits the single length byte the
code uses is discarded and the following packets are renumbered
consecutively from 1; an ERR first packet leaves the buffer untouched and
moves the wait to retrying-on-master, whereupon the completed reply is
discarded and the stored statement is re-issued with a route-to-master
hint. -/
theorem causal_read_wait_handling (s : RWState) (p0 : Packet) (rest : List Packet)
    (ro fm : Bool) (gp : Option (List Char))
    (hcz : s.config.causal_reads = true)
    (hwait : s.wait_gtid = .WAITING_FOR_HEADER)
    (hwf : ∀ p ∈ p0 :: rest, p.WF)
    (hpe : p0.payload ≠ []) :
    (p0.payload.headD 0 = MYSQL_REPLY_OK →
     p0.payload.length + MYSQL_HEADER_LEN < 256 →
       (handle_causal_read_reply s (encodeBuf (p0 :: rest)) ro fm gp).1.wait_gtid
          = .UPDATING_PACKETS
       ∧ (handle_causal_read_reply s (encodeBuf (p0 :: rest)) ro fm gp).1.next_seq
          = 1 + rest.length
       ∧ (handle_causal_read_reply s (encodeBuf (p0 :: rest)) ro fm gp).2
          = encodeBuf (renumberFrom 1 rest))
    ∧ (p0.payload.headD 0 = MYSQL_REPLY_ERR →
       (handle_causal_read_reply s (encodeBuf (p0 :: rest)) ro fm gp).1.wait_gtid
          = .RETRYING_ON_MASTER
       ∧ (handle_causal_read_reply s (encodeBuf (p0 :: rest)) ro fm gp).2
          = encodeBuf (p0 :: rest))
    ∧ (∀ (s2 : RWState) (wb : List Nat) (ctx : ReplyCtx) (q : Buf) (rk : Bool),
       s2.config.causal_reads = true → s2.wait_gtid = .RETRYING_ON_MASTER →
       s2.otrx_state = .INACTIVE → s2.current_query = some q →
       ctx.replyComplete = true → ctx.errUnexpected = false →
       ctx.errRollback = false → ctx.errWsrep = false → ctx.trxActive = false →
       wb ≠ [] →
         (clientReply s2 wb ctx rk).forwarded = none
         ∧ (clientReply s2 wb ctx rk).actions
            = [.retryQuery { q with hintMaster := true } 0]
         ∧ (clientReply s2 wb ctx rk).state.wait_gtid = .NONE
         ∧ (clientReply s2 wb ctx rk).state.current_query = none
         ∧ (clientReply s2 wb ctx rk).state.expected_responses
            = s2.expected_responses - 1) := by
  have hwfp : p0.WF := hwf p0 (by simp)
  have hrd : readLen3 (encodeBuf (p0 :: rest)) 0 = p0.payload.length := by
    rw [encodeBuf_cons]; exact readLen3_encode p0 _ hwfp
  have hgb := getByte_encodeBuf_cmd p0 rest hpe
  refine ⟨?_, ?_, ?_⟩
  · intro hcmd hlen
    have hok : getByte (encodeBuf (p0 :: rest)) MYSQL_HEADER_LEN = MYSQL_REPLY_OK := by
      rw [hgb, hcmd]
    have hmod : (readLen3 (encodeBuf (p0 :: rest)) 0 + MYSQL_HEADER_LEN) % 256
        = p0.payload.length + MYSQL_HEADER_LEN := by
      rw [hrd]; exact Nat.mod_eq_of_lt hlen
    have hdrop : (encodeBuf (p0 :: rest)).drop (p0.payload.length + MYSQL_HEADER_LEN)
        = encodeBuf rest := by
      rw [encodeBuf_cons, ← encodePacket_length p0, List.drop_left]
    obtain ⟨cfg, er, qq, ira, crt, ntr, t1, t2, t3, os, cq, iq, wg, ns, ox, gs⟩ := s
    replace hwait : wg = WaitGtid.WAITING_FOR_HEADER := hwait
    subst hwait
    replace hcz : cfg.causal_reads = true := hcz
    cases rest with
    | nil =>
      rcases gp with _ | gg <;> by_cases hrf : ro = true ∧ fm = true <;>
        simp [handle_causal_read_reply, hcz, hrf, discard_master_wait_gtid_result, hok,
          hmod, hdrop, encodeBuf_nil, renumberFrom]
    | cons r0 rs =>
      have hne2 : encodeBuf (r0 :: rs) ≠ [] := encodeBuf_ne_nil _ (by simp)
      have hcor := correct_packet_sequence_encode (r0 :: rs) 1
        (fun p hp => hwf p (List.mem_cons_of_mem _ hp))
      rcases gp with _ | gg <;> by_cases hrf : ro = true ∧ fm = true <;>
        simp [handle_causal_read_reply, hcz, hrf, discard_master_wait_gtid_result, hok,
          hmod, hdrop, hne2, hcor]
  · intro hcmd
    have hok' : getByte (encodeBuf (p0 :: rest)) MYSQL_HEADER_LEN ≠ MYSQL_REPLY_OK := by
      rw [hgb, hcmd]; decide
    have herr : getByte (encodeBuf (p0 :: rest)) MYSQL_HEADER_LEN = MYSQL_REPLY_ERR := by
      rw [hgb, hcmd]
    obtain ⟨cfg, er, qq, ira, crt, ntr, t1, t2, t3, os, cq, iq, wg, ns, ox, gs⟩ := s
    replace hwait : wg = WaitGtid.WAITING_FOR_HEADER := hwait
    subst hwait
    replace hcz : cfg.causal_reads = true := hcz
    rcases gp with _ | gg <;> by_cases hrf : ro = true ∧ fm = true <;>
      simp [handle_causal_read_reply, hcz, hrf, discard_master_wait_gtid_result, hok', herr,
        MYSQL_REPLY_ERR, MYSQL_REPLY_OK]
  · intro s2 wb ctx q rk h1 h2 h3 h4 h5 h6 h7 h8 h9 hwb
    obtain ⟨cfg, er, qq, ira, crt, ntr, t1, t2, t3, os, cq, iq, wg, ns, ox, gs⟩ := s2
    replace h2 : wg = WaitGtid.RETRYING_ON_MASTER := h2
    replace h3 : ox = Otrx.INACTIVE := h3
    replace h4 : cq = some q := h4
    subst h2; subst h3; subst h4
    replace h1 : cfg.causal_reads = true := h1
    rcases hgp : ctx.gtidProp with _ | gg <;>
      by_cases hrf : ctx.replyOk = true ∧ ctx.fromMaster = true <;>
      simp [clientReply, handle_causal_read_reply, h1, hgp, hrf, hwb, h5, h6, h7, h8, h9,
        manage_transactions, reply_complete_block, actOf]

/-- The OK packet of the C3 counterexample: payload of 252 bytes, so the
wire length 256 overflows the `uint8_t packet_len` of
`discard_master_wait_gtid_result` to 0. -/
def c3BigOk : Packet := { payload := 0 :: List.replicate 251 0, seq := 1 }

/-- The session state of the C3 counterexample and witness: causal reads
enabled, waiting for the `MASTER_GTID_WAIT` header. -/
def c3Wait : RWState :=
  { config := { causal_reads := true }, wait_gtid := .WAITING_FOR_HEADER }

set_option maxRecDepth 4096 in
/-- Counterexample to C3 as stated: the first reply packet is an OK packet,
yet it is not discarded — the 3-byte payload length 252 plus the 4 header
bytes is truncated to a `uint8_t`, so `gwbuf_consume` consumes 0 bytes and
the returned buffer still begins with (indeed equals) the OK packet. -/
theorem causal_read_wait_truncation :
    getByte (encodeBuf [c3BigOk]) MYSQL_HEADER_LEN = MYSQL_REPLY_OK
    ∧ (discard_master_wait_gtid_result c3Wait (encodeBuf [c3BigOk])).2 = encodeBuf [c3BigOk]
    ∧ encodeBuf [c3BigOk] ≠ [] := by
  refine ⟨by decide, ?_, by decide⟩
  unfold discard_master_wait_gtid_result
  rw [if_pos (by decide)]
  have h : (readLen3 (encodeBuf [c3BigOk]) 0 + MYSQL_HEADER_LEN) % 256 = 0 := by decide
  rw [h]
  rfl

/-- Concrete state for the C3 witness clientReply part: retrying on master
with a stored query. -/
def c3Retry : RWState :=
  { config := { causal_reads := true },
    wait_gtid := .RETRYING_ON_MASTER,
    current_query := some { bytes := [7] } }

/-- Concrete reply context for the C3 witness: a complete error-free reply. -/
def c3Ctx : ReplyCtx := { replyComplete := true }

/-- Witness for C3 at concrete inputs: a small OK packet followed by one
result packet gets discarded and the result packet renumbered to 1; and a
completed retry-on-master reply re-issues the stored query with a master
hint. -/
theorem causal_read_wait_handling_witness :
    (handle_causal_read_reply c3Wait
        (encodeBuf [{ payload := [0, 0], seq := 1 }, { payload := [5, 6], seq := 9 }])
        false false none).2
      = encodeBuf [{ payload := [5, 6], seq := 1 }]
    ∧ (clientReply c3Retry [1, 0, 0, 1, 0] c3Ctx false).actions
      = [.retryQuery { bytes := [7], hintMaster := true } 0] := by
  constructor
  · have h := ((causal_read_wait_handling c3Wait { payload := [0, 0], seq := 1 }
      [{ payload := [5, 6], seq := 9 }] false false none rfl rfl (by decide)
      (by decide)).1 rfl (by decide)).2.2
    rw [h]
    decide
  · exact ((causal_read_wait_handling c3Wait { payload := [0, 0], seq := 1 } [] false false
      none rfl rfl (by decide) (by decide)).2.2
      c3Retry [1, 0, 0, 1, 0] c3Ctx { bytes := [7] } false rfl rfl rfl rfl rfl rfl rfl
      rfl rfl (by decide)).2.1

/-! ## User-cache refresh (server/core/service.cc, Service::refresh_users)
and client authentication (mysql_auth.cc,
MariaDBAuthenticatorSession::authenticate) -/

/-- Result of `Listener::load_users` for one listener
(`MXS_AUTH_LOADUSERS_OK / _ERROR / _FATAL`). -/
inductive LoadUsersResult where
  | ok
  | error
  | fatal
  deriving Repr, DecidableEq

/-- The time and listener facts `Service::refresh_users` reads: the current
time, the startup time, the configured `users_refresh_time`, the worker's
last-reload time, and the `load_users` result of each listener. -/
structure RefreshEnv where
  now : Nat := 0
  started : Nat := 0
  users_refresh_time : Nat := 0
  last : Nat := 0
  loads : List LoadUsersResult := []
  deriving Repr, DecidableEq

/-- Embedding of `Service::refresh_users`: under the rate limit the function
only warns and reports success without reloading; otherwise it reloads every
listener's users and reports failure if any load failed. Returns
(reported success, whether a reload was performed). -/
def refresh_users (e : RefreshEnv) : Bool × Bool :=
  if e.started + e.users_refresh_time < e.now ∧ e.now < e.last + e.users_refresh_time then
    (true, false)
  else
    (e.loads.all (fun l => l = .ok), true)

/-- Embedding of `service_refresh_users`: 0 on success and 1 on error. -/
def service_refresh_users (e : RefreshEnv) : Nat :=
  if (refresh_users e).1 then 0 else 1

/-- The authentication status codes used by `authenticate`
(`MXS_AUTH_*` of `include/maxscale/authenticator.h`). -/
inductive AuthRet where
  | SSL_COMPLETE
  | SUCCEEDED
  | FAILED
  | FAILED_DB
  | FAILED_WRONG_PASSWORD
  | INCOMPLETE
  deriving Repr, DecidableEq

/-- The inputs of one `MariaDBAuthenticatorSession::authenticate` call: the
session facts it branches on and the results of the (at most two)
`validate_mysql_user` calls, which it makes with identical arguments. -/
structure AuthEnv where
  userNonempty : Bool := true
  correctAuthenticator : Bool := true
  switchWriteOk : Bool := true
  validate1 : AuthRet := .FAILED
  validate2 : AuthRet := .FAILED
  refresh : RefreshEnv := {}
  deriving Repr, DecidableEq

/-- Observable outcome of `authenticate`: the returned status and how many
`validate_mysql_user` and `service_refresh_users` calls were made. -/
structure AuthOutcome where
  ret : AuthRet
  validateCalls : Nat
  refreshCalls : Nat
  deriving Repr, DecidableEq

/-- Embedding of `MariaDBAuthenticatorSession::authenticate`. The
`&&`-short-circuit of the source means `service_refresh_users` runs exactly
when the first validation did not succeed, and the second validation runs
exactly when the refresh call additionally returned 0. -/
def authenticate (e : AuthEnv) : AuthOutcome :=
  if e.userNonempty = false then
    { ret := .SSL_COMPLETE, validateCalls := 0, refreshCalls := 0 }
  else if e.correctAuthenticator = false then
    { ret := if e.switchWriteOk then .INCOMPLETE else .FAILED,
      validateCalls := 0, refreshCalls := 0 }
  else if e.validate1 ≠ .SUCCEEDED then
    if service_refresh_users e.refresh = 0 then
      { ret := e.validate2, validateCalls := 2, refreshCalls := 1 }
    else
      { ret := e.validate1, validateCalls := 1, refreshCalls := 1 }
  else
    { ret := e.validate1, validateCalls := 1, refreshCalls := 0 }

/-- Concrete environment for the C6 counterexample: the first validation
fails and the user reload itself fails (not rate-limited, one listener whose
`load_users` errors). -/
def c6FailEnv : AuthEnv :=
  { validate1 := .FAILED, validate2 := .SUCCEEDED,
    refresh := { now := 5, started := 0, users_refresh_time := 10, last := 0,
                 loads := [.error] } }

/-- Counterexample to C6 as stated: the first validation fails and
`service_refresh_users` is called, but it returns 1 (the reload failed), so
the failure is reported after a single validation — no second validation
with the same inputs happens, although it would have succeeded. -/
theorem authenticate_no_retry_on_failed_refresh :
    service_refresh_users c6FailEnv.refresh = 1
    ∧ authenticate c6FailEnv
        = { ret := .FAILED, validateCalls := 1, refreshCalls := 1 } := by
  constructor <;> rfl

/-- C6 (amended): when the first `validate_mysql_user` call does not
succeed, `service_refresh_users` is called exactly once; if that call
reports success (returns 0) validation is retried exactly once with the same
inputs and its result is returned, and if it reports failure the first
result is returned without a retry; a first successful validation is
returned at once without any refresh; hence the result is success whenever
the first validation succeeds or a performed second validation succeeds. -/
theorem authenticate_refresh_retry (e : AuthEnv)
    (hu : e.userNonempty = true) (hca : e.correctAuthenticator = true) :
    (e.validate1 = .SUCCEEDED →
       authenticate e = { ret := .SUCCEEDED, validateCalls := 1, refreshCalls := 0 })
    ∧ (e.validate1 ≠ .SUCCEEDED →
       (authenticate e).refreshCalls = 1
       ∧ (service_refresh_users e.refresh = 0 →
          authenticate e = { ret := e.validate2, validateCalls := 2, refreshCalls := 1 })
       ∧ (service_refresh_users e.refresh ≠ 0 →
          authenticate e = { ret := e.validate1, validateCalls := 1, refreshCalls := 1 }))
    ∧ ((e.validate1 = .SUCCEEDED
        ∨ (service_refresh_users e.refresh = 0 ∧ e.validate2 = .SUCCEEDED)) →
       (authenticate e).ret = .SUCCEEDED) := by
  refine ⟨fun h1 => ?_, fun h1 => ⟨?_, fun hr => ?_, fun hr => ?_⟩, fun h1 => ?_⟩
  · simp [authenticate, hu, hca, h1]
  · by_cases hr : service_refresh_users e.refresh = 0 <;>
      simp [authenticate, hu, hca, h1, hr]
  · simp [authenticate, hu, hca, h1, hr]
  · simp [authenticate, hu, hca, h1, hr]
  · rcases h1 with h1 | ⟨hr, h2⟩
    · simp [authenticate, hu, hca, h1]
    · by_cases hv : e.validate1 = AuthRet.SUCCEEDED <;>
        simp [authenticate, hu, hca, hv, hr, h2]

/-- Concrete environment for the C6 witness: first validation fails, the
refresh succeeds, the retried validation succeeds. -/
def c6RetryEnv : AuthEnv :=
  { validate1 := .FAILED_WRONG_PASSWORD, validate2 := .SUCCEEDED,
    refresh := { now := 5, started := 0, users_refresh_time := 10, last := 0,
                 loads := [.ok] } }

/-- Witness for C6 at a concrete input: the failed first validation triggers
one refresh and one retry, which succeeds. -/
theorem authenticate_refresh_retry_witness :
    authenticate c6RetryEnv
      = { ret := .SUCCEEDED, validateCalls := 2, refreshCalls := 1 }
    ∧ (authenticate c6RetryEnv).ret = .SUCCEEDED := by
  constructor
  · exact ((authenticate_refresh_retry c6RetryEnv rfl rfl).2.1 (by decide)).2.1 (by decide)
  · exact (authenticate_refresh_retry c6RetryEnv rfl rfl).2.2 (Or.inr ⟨by decide, rfl⟩)

/-! ## COM_CHANGE_USER handling (client protocol module,
`handle_change_user` / `reauthenticate_client`)

```cpp
bool handle_change_user(MySQLProtocol* proto, bool* changed_user, GWBUF** packetbuf)
{
    bool ok = true;
    if (!proto->changing_user && proto->reply().command() == MXS_COM_CHANGE_USER)
    {   ...; s->changing_user = true; *changed_user = true;
        send_auth_switch_request_packet(...);
        proto->stored_query = *packetbuf; *packetbuf = NULL; }
    else if (proto->changing_user)
    {   proto->changing_user = false;
        bool ok = reauthenticate_client(proto->session(), *packetbuf);
        gwbuf_free(*packetbuf);
        *packetbuf = proto->stored_query; proto->stored_query = nullptr; }
    return ok;
}
```
The inner `bool ok` declaration shadows the outer `ok`, so the result of
`reauthenticate_client` is discarded and the function returns the outer
`ok`, which is still `true`. The embedding keeps that shadowing: the
returned flag does not depend on `reauthOk`. -/

/-- The protocol/session state `handle_change_user` reads and writes. -/
structure CUState where
  protoChangingUser : Bool := false
  sessChangingUser : Bool := false
  storedQuery : Option Buf := none
  replyIsChangeUser : Bool := false
  authSwitchSent : Bool := false
  deriving Repr, DecidableEq

/-- Embedding of `handle_change_user`. `reauthOk` is the result of
`reauthenticate_client` (which on failure sends an authentication error to
the client); the return value is `(ok, new state, packetbuf, changed_user)`.
Because of the shadowed `ok` in the source, `ok` is `true` in every branch
and the buffer handed back for routing ignores `reauthOk`. -/
def handle_change_user (st : CUState) (packetbuf : Option Buf) (reauthOk : Bool) :
    Bool × CUState × Option Buf × Bool :=
  if st.protoChangingUser = false ∧ st.replyIsChangeUser = true then
    (true,
     { st with sessChangingUser := true, authSwitchSent := true,
               storedQuery := packetbuf },
     none, true)
  else if st.protoChangingUser = true then
    (true, { st with protoChangingUser := false, storedQuery := none },
     st.storedQuery, false)
  else
    (true, st, packetbuf, false)

/-- The slice of `route_by_statement` around `handle_change_user`: on a
false return the buffer is freed and routing stops with an error; otherwise
a non-null buffer is handed to `do_routeQuery`. Returns (ok, buffer routed
to the router). -/
def route_change_user_step (st : CUState) (packetbuf : Option Buf) (reauthOk : Bool) :
    Bool × Option Buf :=
  let h := handle_change_user st packetbuf reauthOk
  if h.1 = false then (false, none) else (true, h.2.2.1)

/-- The session state of the C7 failing input: an auth-switch response is
pending with the original COM_CHANGE_USER stored. -/
def c7Pending : CUState :=
  { protoChangingUser := true, replyIsChangeUser := true,
    storedQuery := some { bytes := [0x11] } }

/-- C7, evaluated at the failing input: although re-authentication fails
(`reauthOk = false`), `handle_change_user` still returns true — the inner
`bool ok` shadows the outer one — and the stored COM_CHANGE_USER is handed
to the router, contradicting the source's own comment that a failed
re-authentication must prevent the COM_CHANGE_USER from reaching the
backends, and dead-coding the caller's error branch. -/
theorem change_user_routed_despite_failed_reauth :
    (handle_change_user c7Pending none false).1 = true
    ∧ route_change_user_step c7Pending none false
        = (true, some { bytes := [0x11] })
    ∧ route_change_user_step c7Pending none false
        = route_change_user_step c7Pending none true := by
  refine ⟨rfl, rfl, rfl⟩

/-! ## KILL statement parsing (client protocol module, `parse_kill_query`)

The parser tokenizes the query with `strtok_r` on " \n\t" and runs a small
state machine over the tokens. Keyword comparisons use
`strncasecmp(token, WORD, sizeof(WORD) - 1)`: case-insensitive comparison of
the first `|WORD|` characters, so any token extending a keyword matches it.
The id is parsed with `strtoll(token, &endptr, 0)`: base prefixes `0x`/`0`
are honored and parsing stops at the first non-digit, which must be `'\0'`
or `';'`. -/

/-- ASCII tolower. -/
def toLowerCh (c : Char) : Char :=
  if 65 ≤ c.toNat ∧ c.toNat ≤ 90 then Char.ofNat (c.toNat + 32) else c

def isDigitC (c : Char) : Bool := 48 ≤ c.toNat ∧ c.toNat ≤ 57

/-- `strncasecmp(token, word, word.length) == 0` for NUL-terminated strings:
the first `word.length` characters of `token` match `word` case-
insensitively (a shorter token fails at its NUL byte, which `take` models by
producing a shorter list). -/
def matchKeyword (token word : List Char) : Bool :=
  (token.take word.length).map toLowerCh = word.map toLowerCh

/-- Membership of a character in the digit set of a base (8, 10 or 16). -/
def isBaseDigit (base : Nat) (c : Char) : Bool :=
  if base = 16 then
    isDigitC c ∨ (97 ≤ (toLowerCh c).toNat ∧ (toLowerCh c).toNat ≤ 102)
  else
    48 ≤ c.toNat ∧ c.toNat < 48 + base

/-- Numeric value of a (hex) digit character. -/
def hexVal (c : Char) : Nat :=
  if isDigitC c then c.toNat - 48 else (toLowerCh c).toNat - 97 + 10

/-- Consume leading digits of the given base, accumulating the value and
counting the consumed characters. -/
def scanDigits (base : Nat) : List Char → Nat → Nat → Nat × List Char × Nat
  | [], acc, cnt => (acc, [], cnt)
  | c :: cs, acc, cnt =>
    if isBaseDigit base c then scanDigits base cs (acc * base + hexVal c) (cnt + 1)
    else (acc, c :: cs, cnt)

/-- C `isspace` characters. -/
def isSpaceC (c : Char) : Bool :=
  c.toNat = 32 ∨ (9 ≤ c.toNat ∧ c.toNat ≤ 13)

def LLONG_MAX : Int := 2 ^ 63 - 1

/-- Embedding of `strtoll(s, &endptr, 0)`: skip whitespace, read an optional
sign, detect the base from a `0x`/`0` prefix, consume the digits and clamp
to the `long long` range. Returns (value, endptr remainder, range error,
whether any conversion was performed — endptr equals the input when not). -/
def strtoll0 (s : List Char) : Int × List Char × Bool × Bool :=
  let s1 := s.dropWhile isSpaceC
  let neg := s1.headD ' ' = '-'
  let s2 := if s1.headD ' ' = '-' ∨ s1.headD ' ' = '+' then s1.tail else s1
  let d :=
    if s2.headD ' ' = '0' ∧ (s2.tail.headD ' ' = 'x' ∨ s2.tail.headD ' ' = 'X')
        ∧ isBaseDigit 16 (s2.tail.tail.headD ' ') = true then
      scanDigits 16 s2.tail.tail 0 0
    else if s2.headD ' ' = '0' then
      scanDigits 8 s2 0 0
    else
      scanDigits 10 s2 0 0
  if d.2.2 = 0 then (0, s, false, false)
  else if neg then
    if 2 ^ 63 ≤ d.1 then (-(2 ^ 63), d.2.1, true, true)
    else (-(d.1 : Int), d.2.1, false, true)
  else
    if 2 ^ 63 ≤ d.1 then (LLONG_MAX, d.2.1, true, true)
    else ((d.1 : Int), d.2.1, false, true)

/-- The id-token handling of the `ID` state: accept a `strtoll` result that
converted something, lies in (0, LLONG_MAX] without a range error, and whose
end pointer is NUL or `';'`. -/
def parseIdToken (token : List Char) : Option Nat :=
  let r := strtoll0 token
  if (r.1 = LLONG_MAX ∧ r.2.2.1 = true)
      ∨ (r.2.1 ≠ [] ∧ r.2.1.headD ' ' ≠ ';')
      ∨ r.1 ≤ 0
      ∨ r.2.2.2 = false then
    none
  else
    some r.1.toNat

/-- Embedding of `extract_user`: the user name is the token up to a `';'`. -/
def extract_user (token : List Char) : List Char :=
  token.takeWhile (fun c => c ≠ ';')

/-- The `kill_type_t` bitmask as flags (`KT_CONNECTION` is the initial
value). -/
structure KillFlags where
  connection : Bool := true
  query : Bool := false
  hard : Bool := false
  soft : Bool := false
  deriving Repr, DecidableEq

/-- Parser state of `parse_kill_query`. -/
inductive KillState where
  | KILL
  | CONN_QUERY
  | ID
  | USER
  | SEMICOLON
  | DONE
  deriving Repr, DecidableEq

/-- Accumulated outputs of `parse_kill_query`. -/
structure KillAcc where
  flags : KillFlags := {}
  threadId : Nat := 0
  user : List Char := []
  deriving Repr, DecidableEq

def WORD_KILL : List Char := ['K', 'I', 'L', 'L']
def WORD_CONNECTION : List Char := ['C', 'O', 'N', 'N', 'E', 'C', 'T', 'I', 'O', 'N']
def WORD_QUERY : List Char := ['Q', 'U', 'E', 'R', 'Y']
def WORD_HARD : List Char := ['H', 'A', 'R', 'D']
def WORD_SOFT : List Char := ['S', 'O', 'F', 'T']
def WORD_USER : List Char := ['U', 'S', 'E', 'R']

/-- One iteration of the `parse_kill_query` token loop: given the state and
the current token, the new state, the accumulator and the `get_next` flag,
or `none` for `error = true`. Only `CONN_QUERY` can leave `get_next`
false (falling through to `ID` on the same token). -/
def stepKill : KillState → KillAcc → List Char → Option (KillState × KillAcc × Bool)
  | .KILL, a, token =>
    if matchKeyword token WORD_KILL then some (.CONN_QUERY, a, true) else none
  | .CONN_QUERY, a, token =>
    let fst : KillAcc × Bool :=
      if matchKeyword token WORD_QUERY then
        ({ a with flags := { a.flags with connection := false, query := true } }, true)
      else if matchKeyword token WORD_CONNECTION then (a, true)
      else (a, false)
    if matchKeyword token WORD_HARD then
      some (.CONN_QUERY, { fst.1 with flags := { fst.1.flags with hard := true } }, true)
    else if matchKeyword token WORD_SOFT then
      some (.CONN_QUERY, { fst.1 with flags := { fst.1.flags with soft := true } }, true)
    else
      some (.ID, fst.1, fst.2)
  | .ID, a, token =>
    if matchKeyword token WORD_USER then
      some (.USER, a, true)
    else
      match parseIdToken token with
      | none => none
      | some v => some (.SEMICOLON, { a with threadId := v }, true)
  | .USER, a, token =>
    some (.SEMICOLON, { a with user := extract_user token }, true)
  | .SEMICOLON, a, token =>
    if token.headD ' ' = ';' then some (.DONE, a, true) else none
  | .DONE, _, _ => none

/-- The token loop of `parse_kill_query`. When `get_next` stays false the
same token is processed again in the new state, as the C `while` loop
does. -/
def runKill : List (List Char) → KillState → KillAcc → Option (KillState × KillAcc)
  | [], st, a => some (st, a)
  | t :: ts, st, a =>
    match stepKill st a t with
    | none => none
    | some (st1, a1, true) => runKill ts st1 a1
    | some (st1, a1, false) =>
      match stepKill st1 a1 t with
      | none => none
      | some (st2, a2, _) => runKill ts st2 a2

/-- `parse_kill_query` over the token list: run the machine and accept in
the `DONE` or `SEMICOLON` states. -/
def parse_kill_query_tokens (tokens : List (List Char)) :
    Option (Nat × KillFlags × List Char) :=
  match runKill tokens .KILL {} with
  | none => none
  | some (st, a) =>
    if st = .DONE ∨ st = .SEMICOLON then some (a.threadId, a.flags, a.user) else none

/-- `strtok_r` tokenization on the delimiters " \n\t". -/
def killTokenize (s : List Char) : List (List Char) :=
  (s.splitOnP (fun c => c = ' ' ∨ c = '\n' ∨ c = '\t')).filter (fun t => t ≠ [])

/-- Embedding of `parse_kill_query` on the query text: `none` models a
`false` return. -/
def parse_kill_query (query : List Char) : Option (Nat × KillFlags × List Char) :=
  parse_kill_query_tokens (killTokenize query)

/-- Decimal value of a digit string. -/
def decimalVal (t : List Char) : Nat :=
  t.foldl (fun a c => a * 10 + (c.toNat - 48)) 0

/-- The claimed statement form, as a structure: optional HARD/SOFT, optional
CONNECTION/QUERY, an id token or `USER <name>`, and an optional semicolon
token. This is the specification-side description of
`KILL [HARD|SOFT] [CONNECTION|QUERY] {<id> | USER <name>}`. -/
structure KillForm where
  hard : Option Bool := none
  query : Option Bool := none
  target : List Char ⊕ List Char
  semi : Bool := false

def semiTokens (b : Bool) : List (List Char) :=
  if b then [[';']] else []

/-- The token list of a `KillForm`. -/
def KillForm.tokens (f : KillForm) : List (List Char) :=
  WORD_KILL
    :: ((match f.hard with
         | some true => [WORD_HARD]
         | some false => [WORD_SOFT]
         | none => [])
      ++ (match f.query with
          | some true => [WORD_QUERY]
          | some false => [WORD_CONNECTION]
          | none => [])
      ++ (match f.target with
          | Sum.inl t => [t]
          | Sum.inr u => [WORD_USER, u])
      ++ semiTokens f.semi)

/-- The outputs the claim expects for a `KillForm`. -/
def KillForm.expected (f : KillForm) : Nat × KillFlags × List Char :=
  (match f.target with
   | Sum.inl t => decimalVal t
   | Sum.inr _ => 0,
   { connection := match f.query with | some true => false | _ => true,
     query := match f.query with | some true => true | _ => false,
     hard := match f.hard with | some true => true | _ => false,
     soft := match f.hard with | some false => true | _ => false },
   match f.target with
   | Sum.inl _ => []
   | Sum.inr u => u)

theorem toLowerCh_digit (x : Char) (hd : isDigitC x = true) : toLowerCh x = x := by
  have hd2 : 48 ≤ x.toNat ∧ x.toNat ≤ 57 := by simpa [isDigitC] using hd
  simp only [toLowerCh]
  rw [if_neg (by omega)]

theorem matchKeyword_digit_head (x : Char) (xs : List Char) (c : Char) (cs : List Char)
    (hd : isDigitC x = true) (hc : 97 ≤ (toLowerCh c).toNat) :
    matchKeyword (x :: xs) (c :: cs) = false := by
  have hd2 : 48 ≤ x.toNat ∧ x.toNat ≤ 57 := by simpa [isDigitC] using hd
  unfold matchKeyword
  simp only [List.length_cons, List.take_succ_cons, List.map_cons]
  apply decide_eq_false
  intro heq
  have hx : toLowerCh x = toLowerCh c := (List.cons.inj heq).1
  rw [toLowerCh_digit x hd] at hx
  have := congrArg Char.toNat hx
  omega

theorem scanDigits_all_digits (l : List Char) (acc cnt : Nat) (h : l.all isDigitC = true) :
    scanDigits 10 l acc cnt
      = (l.foldl (fun a c => a * 10 + (c.toNat - 48)) acc, [], cnt + l.length) := by
  induction l generalizing acc cnt with
  | nil => simp [scanDigits]
  | cons c cs ih =>
    simp only [List.all_cons, Bool.and_eq_true] at h
    have hb : isBaseDigit 10 c = true := by
      have := h.1
      simp [isDigitC] at this
      simp [isBaseDigit]
      omega
    have hv : hexVal c = c.toNat - 48 := by
      simp [hexVal, h.1]
    rw [scanDigits, if_pos hb, ih _ _ h.2, hv]
    simp
    omega

theorem digit_not_space (x : Char) (hd : isDigitC x = true) : isSpaceC x = false := by
  have hd2 : 48 ≤ x.toNat ∧ x.toNat ≤ 57 := by simpa [isDigitC] using hd
  simp [isSpaceC]
  omega

theorem digit_ne_char (x c : Char) (hd : isDigitC x = true)
    (hc : c.toNat < 48 ∨ 57 < c.toNat) : x ≠ c := by
  intro h
  subst h
  have hd2 : 48 ≤ x.toNat ∧ x.toNat ≤ 57 := by simpa [isDigitC] using hd
  omega

theorem parseIdToken_decimal (t : List Char) (h1 : t ≠ []) (h2 : t.all isDigitC = true)
    (h3 : t.headD '0' ≠ '0') (h4 : 0 < decimalVal t) (h5 : decimalVal t < 2 ^ 63) :
    parseIdToken t = some (decimalVal t) := by
  cases t with
  | nil => exact absurd rfl h1
  | cons x xs =>
    have hx : isDigitC x = true := by
      simp only [List.all_cons, Bool.and_eq_true] at h2
      exact h2.1
    have hxs : (x :: xs).all isDigitC = true := h2
    have hnm : x ≠ '-' := digit_ne_char x '-' hx (by decide)
    have hnp : x ≠ '+' := digit_ne_char x '+' hx (by decide)
    have hn0 : x ≠ '0' := by simpa using h3
    have hdw : (x :: xs).dropWhile isSpaceC = x :: xs := by
      simp [List.dropWhile, digit_not_space x hx]
    have hscan := scanDigits_all_digits (x :: xs) 0 0 hxs
    have hpos : 0 < (x :: xs).foldl (fun a c => a * 10 + (c.toNat - 48)) 0 := h4
    have hlt : (x :: xs).foldl (fun a c => a * 10 + (c.toNat - 48)) 0 < 2 ^ 63 := h5
    unfold parseIdToken strtoll0
    dsimp only
    simp only [hdw, List.headD_cons, List.tail_cons]
    have c1 : ¬(x = '-' ∨ x = '+') := by simp [hnm, hnp]
    rw [if_neg c1]
    simp only [List.headD_cons, List.tail_cons]
    have c2 : ¬(x = '0' ∧ (xs.headD ' ' = 'x' ∨ xs.headD ' ' = 'X')
        ∧ isBaseDigit 16 (xs.tail.headD ' ') = true) := by simp [hn0]
    rw [if_neg c2, if_neg hn0, hscan]
    dsimp only
    have c4 : ¬(0 + (x :: xs).length = 0) := by simp
    rw [if_neg c4]
    have c6 : ¬(2 ^ 63 ≤ (x :: xs).foldl (fun a c => a * 10 + (c.toNat - 48)) 0) := by
      omega
    rw [if_neg hnm, if_neg c6]
    dsimp only
    have c7 : ¬(((((x :: xs).foldl (fun a c => a * 10 + (c.toNat - 48)) 0 : ℕ) : ℤ)
              = LLONG_MAX ∧ false = true)
        ∨ (([] : List Char) ≠ [] ∧ ([] : List Char).headD ' ' ≠ ';')
        ∨ ((((x :: xs).foldl (fun a c => a * 10 + (c.toNat - 48)) 0 : ℕ) : ℤ) ≤ 0)
        ∨ true = false) := by
      simp only [not_or]
      refine ⟨by simp, by simp, ?_, by simp⟩
      simp only [not_le]
      exact_mod_cast hpos
    rw [if_neg c7]
    simp [decimalVal]

theorem extract_user_no_semi (u : List Char) (h : u.all (fun c => c ≠ ';') = true) :
    extract_user u = u := by
  induction u with
  | nil => rfl
  | cons c cs ih =>
    simp only [List.all_cons, Bool.and_eq_true] at h
    unfold extract_user at ih ⊢
    rw [List.takeWhile_cons, if_pos h.1, ih h.2]

theorem runKill_step {st : KillState} {a : KillAcc} {t : List Char} {st1 : KillState}
    {a1 : KillAcc} (ts : List (List Char)) (h : stepKill st a t = some (st1, a1, true)) :
    runKill (t :: ts) st a = runKill ts st1 a1 := by
  rw [runKill, h]

theorem runKill_semi_tail (a : KillAcc) (semi : Bool) :
    runKill (semiTokens semi) .SEMICOLON a
      = some ((if semi then KillState.DONE else .SEMICOLON), a) := by
  cases semi <;> simp [semiTokens, runKill, stepKill]

theorem runKill_id_tail (start : KillState)
    (hstart : start = KillState.CONN_QUERY ∨ start = KillState.ID)
    (a : KillAcc) (t : List Char) (semi : Bool)
    (h1 : t ≠ []) (h2 : t.all isDigitC = true) (h3 : t.headD '0' ≠ '0')
    (h4 : 0 < decimalVal t) (h5 : decimalVal t < 2 ^ 63) :
    runKill (t :: semiTokens semi) start a
      = some ((if semi then KillState.DONE else .SEMICOLON),
              { a with threadId := decimalVal t }) := by
  cases t with
  | nil => exact absurd rfl h1
  | cons x xs =>
    have hx : isDigitC x = true := by
      simp only [List.all_cons, Bool.and_eq_true] at h2
      exact h2.1
    have mq := matchKeyword_digit_head x xs 'Q' (WORD_QUERY.tail) hx (by decide)
    have mc := matchKeyword_digit_head x xs 'C' (WORD_CONNECTION.tail) hx (by decide)
    have mh := matchKeyword_digit_head x xs 'H' (WORD_HARD.tail) hx (by decide)
    have ms := matchKeyword_digit_head x xs 'S' (WORD_SOFT.tail) hx (by decide)
    have mu := matchKeyword_digit_head x xs 'U' (WORD_USER.tail) hx (by decide)
    have hid := parseIdToken_decimal (x :: xs) h1 h2 h3 h4 h5
    have hstep : runKill ((x :: xs) :: semiTokens semi) KillState.ID a
        = some ((if semi then KillState.DONE else .SEMICOLON),
                { a with threadId := decimalVal (x :: xs) }) := by
      rw [runKill]
      have : stepKill KillState.ID a (x :: xs)
          = some (KillState.SEMICOLON, { a with threadId := decimalVal (x :: xs) }, true) := by
        rw [stepKill]
        rw [if_neg (by rw [show WORD_USER = 'U' :: WORD_USER.tail from rfl, mu]; simp)]
        rw [hid]
      rw [this]
      exact runKill_semi_tail _ semi
    rcases hstart with h | h <;> subst h
    · have hcq : stepKill KillState.CONN_QUERY a (x :: xs)
          = some (KillState.ID, a, false) := by
        rw [stepKill]
        rw [if_neg (by rw [show WORD_HARD = 'H' :: WORD_HARD.tail from rfl, mh]; simp)]
        rw [if_neg (by rw [show WORD_SOFT = 'S' :: WORD_SOFT.tail from rfl, ms]; simp)]
        rw [show WORD_QUERY = 'Q' :: WORD_QUERY.tail from rfl, mq]
        rw [show WORD_CONNECTION = 'C' :: WORD_CONNECTION.tail from rfl, mc]
        simp
      have hstep2 : stepKill KillState.ID a (x :: xs)
          = some (KillState.SEMICOLON, { a with threadId := decimalVal (x :: xs) }, true) := by
        rw [stepKill]
        rw [if_neg (by rw [show WORD_USER = 'U' :: WORD_USER.tail from rfl, mu]; simp)]
        rw [hid]
      rw [runKill, hcq]
      dsimp only
      rw [hstep2]
      dsimp only
      exact runKill_semi_tail _ semi
    · exact hstep

theorem runKill_user_tail (start : KillState)
    (hstart : start = KillState.CONN_QUERY ∨ start = KillState.ID)
    (a : KillAcc) (u : List Char) (semi : Bool)
    (hu : u.all (fun c => c ≠ ';') = true) :
    runKill (WORD_USER :: u :: semiTokens semi) start a
      = some ((if semi then KillState.DONE else .SEMICOLON), { a with user := u }) := by
  have hstepU : stepKill KillState.ID a WORD_USER = some (KillState.USER, a, true) := by
    rw [stepKill, if_pos (by decide)]
  have hname : runKill (u :: semiTokens semi) KillState.USER a
      = some ((if semi then KillState.DONE else .SEMICOLON), { a with user := u }) := by
    rw [runKill]
    have : stepKill KillState.USER a u
        = some (KillState.SEMICOLON, { a with user := u }, true) := by
      rw [stepKill, extract_user_no_semi u hu]
    rw [this]
    exact runKill_semi_tail _ semi
  rcases hstart with h | h <;> subst h
  · have hcq2 : stepKill KillState.CONN_QUERY a WORD_USER
        = some (KillState.ID, a, false) := by
      rw [stepKill]
      rw [if_neg (by decide), if_neg (by decide)]
      have hq : matchKeyword WORD_USER WORD_QUERY = false := by decide
      have hc : matchKeyword WORD_USER WORD_CONNECTION = false := by decide
      rw [hq, hc]
      simp
    rw [runKill, hcq2]
    dsimp only
    rw [hstepU]
    dsimp only
    exact hname
  · rw [runKill, hstepU]
    exact hname

/-- C9 (amended): every token list of the claimed form
`KILL [HARD|SOFT] [CONNECTION|QUERY] {<id> | USER <name>} [;]` — with a
decimal id token without leading zero whose value is a positive integer
below 2^63, or a non-empty user name without `';'` — is accepted, and the
outputs are the id value (or the user name), kill type QUERY exactly when
the QUERY keyword is present, and the HARD/SOFT flag of the present
keyword. (The negative direction of the original claim fails: keywords are
matched case-insensitively by prefix and ids are parsed by `strtoll` with
base 0, so some inputs not of this form are also accepted.) -/
theorem parse_kill_query_accepts_grammar (f : KillForm)
    (hid : ∀ t, f.target = Sum.inl t →
       t ≠ [] ∧ t.all isDigitC = true ∧ t.headD '0' ≠ '0'
       ∧ 0 < decimalVal t ∧ decimalVal t < 2 ^ 63)
    (hus : ∀ u, f.target = Sum.inr u → u.all (fun c => c ≠ ';') = true) :
    parse_kill_query_tokens f.tokens = some f.expected := by
  obtain ⟨hardO, queryO, target, semi⟩ := f
  have hkill : stepKill KillState.KILL {} WORD_KILL
      = some (KillState.CONN_QUERY, {}, true) := by
    rw [stepKill, if_pos (by decide)]
  have hH : ∀ x : KillAcc, stepKill .CONN_QUERY x WORD_HARD
      = some (.CONN_QUERY, { x with flags := { x.flags with hard := true } }, true) := by
    intro x
    rw [stepKill]
    have h1 : matchKeyword WORD_HARD WORD_QUERY = false := by decide
    have h2 : matchKeyword WORD_HARD WORD_CONNECTION = false := by decide
    have h3 : matchKeyword WORD_HARD WORD_HARD = true := by decide
    rw [h1, h2, h3]
    simp
  have hS : ∀ x : KillAcc, stepKill .CONN_QUERY x WORD_SOFT
      = some (.CONN_QUERY, { x with flags := { x.flags with soft := true } }, true) := by
    intro x
    rw [stepKill]
    have h1 : matchKeyword WORD_SOFT WORD_QUERY = false := by decide
    have h2 : matchKeyword WORD_SOFT WORD_CONNECTION = false := by decide
    have h3 : matchKeyword WORD_SOFT WORD_HARD = false := by decide
    have h4 : matchKeyword WORD_SOFT WORD_SOFT = true := by decide
    rw [h1, h2, h3, h4]
    simp
  have hQ : ∀ x : KillAcc, stepKill .CONN_QUERY x WORD_QUERY
      = some (.ID,
          { x with flags := { x.flags with connection := false, query := true } }, true) := by
    intro x
    rw [stepKill]
    have h1 : matchKeyword WORD_QUERY WORD_QUERY = true := by decide
    have h3 : matchKeyword WORD_QUERY WORD_HARD = false := by decide
    have h4 : matchKeyword WORD_QUERY WORD_SOFT = false := by decide
    rw [h1, h3, h4]
    simp
  have hC : ∀ x : KillAcc, stepKill .CONN_QUERY x WORD_CONNECTION
      = some (.ID, x, true) := by
    intro x
    rw [stepKill]
    have h1 : matchKeyword WORD_CONNECTION WORD_QUERY = false := by decide
    have h2 : matchKeyword WORD_CONNECTION WORD_CONNECTION = true := by decide
    have h3 : matchKeyword WORD_CONNECTION WORD_HARD = false := by decide
    have h4 : matchKeyword WORD_CONNECTION WORD_SOFT = false := by decide
    rw [h1, h2, h3, h4]
    simp
  cases target with
  | inl t =>
    obtain ⟨e1, e2, e3, e4, e5⟩ := hid t rfl
    have htail : ∀ (st : KillState), st = KillState.CONN_QUERY ∨ st = KillState.ID →
        ∀ x : KillAcc, runKill (t :: semiTokens semi) st x
          = some ((if semi then KillState.DONE else .SEMICOLON),
                  { x with threadId := decimalVal t }) := by
      intro st hst x
      exact runKill_id_tail st hst x t semi e1 e2 e3 e4 e5
    unfold parse_kill_query_tokens KillForm.tokens
    dsimp only
    rcases hardO with _ | (_ | _) <;> rcases queryO with _ | (_ | _) <;>
      simp only [List.nil_append, List.cons_append, List.singleton_append,
        List.append_assoc] <;>
      rw [runKill_step _ hkill] <;>
      (try rw [runKill_step _ (hS _)]) <;>
      (try rw [runKill_step _ (hH _)]) <;>
      (try rw [runKill_step _ (hQ _)]) <;>
      (try rw [runKill_step _ (hC _)]) <;>
      (first
        | rw [htail _ (Or.inl rfl) _]
        | rw [htail _ (Or.inr rfl) _]) <;>
      (cases semi <;> simp [KillForm.expected])
  | inr u =>
    have hu := hus u rfl
    have htail : ∀ (st : KillState), st = KillState.CONN_QUERY ∨ st = KillState.ID →
        ∀ x : KillAcc, runKill (WORD_USER :: u :: semiTokens semi) st x
          = some ((if semi then KillState.DONE else .SEMICOLON),
                  { x with user := u }) := by
      intro st hst x
      exact runKill_user_tail st hst x u semi hu
    unfold parse_kill_query_tokens KillForm.tokens
    dsimp only
    rcases hardO with _ | (_ | _) <;> rcases queryO with _ | (_ | _) <;>
      simp only [List.nil_append, List.cons_append, List.singleton_append,
        List.append_assoc] <;>
      rw [runKill_step _ hkill] <;>
      (try rw [runKill_step _ (hS _)]) <;>
      (try rw [runKill_step _ (hH _)]) <;>
      (try rw [runKill_step _ (hQ _)]) <;>
      (try rw [runKill_step _ (hC _)]) <;>
      (first
        | rw [htail _ (Or.inl rfl) _]
        | rw [htail _ (Or.inr rfl) _]) <;>
      (cases semi <;> simp [KillForm.expected])

/-- C9 (counterexample to the negative direction): the input `KILLERS 1` is
not of the claimed form — its first token is not the keyword `KILL`, so it is
not the token list of any `KillForm` — yet `parse_kill_query` accepts it
(keywords are matched by case-insensitive prefix via `strncasecmp`), returning
thread id 1 with the default CONNECTION kill type. -/
theorem parse_kill_query_rejects_nonform_fails :
    parse_kill_query ("KILLERS 1".toList)
      = some (1, { connection := true, query := false, hard := false, soft := false }, [])
    ∧ ∀ f : KillForm, f.tokens ≠ killTokenize ("KILLERS 1".toList) := by
  constructor
  · rfl
  · intro f h
    have hk : (f.tokens).headD [] = WORD_KILL := rfl
    rw [h] at hk
    exact absurd hk (by decide)

/-- Witness: `parse_kill_query_accepts_grammar` applied to the concrete form
`KILL HARD QUERY 123 ;`. -/
theorem parse_kill_query_accepts_grammar_witness :
    parse_kill_query_tokens (KillForm.tokens
        { hard := some true, query := some true, target := Sum.inl ['1', '2', '3'],
          semi := true })
      = some (KillForm.expected
        { hard := some true, query := some true, target := Sum.inl ['1', '2', '3'],
          semi := true }) :=
  parse_kill_query_accepts_grammar
    { hard := some true, query := some true, target := Sum.inl ['1', '2', '3'],
      semi := true }
    (fun t ht => by
      injection ht with h
      subst h
      exact ⟨by decide, by decide, by decide, by decide, by decide⟩)
    (fun u hu => by exact nomatch hu)

end MaxScale
